import Mathlib

/-!
# htmxapp: the contact store, its handlers and the configuration

A shallow embedding of `internal/store/memory.go`, `internal/model/contact.go`,
`internal/handler` (the contact handlers and the middleware),
`internal/tmpl/render.go` and `internal/server/config.go`.

Modelling conventions.

* A Go `string` is a Lean `String`, so the model covers the strings that are
  valid UTF-8.  On those, Go's byte-wise comparison `<` is the lexicographic
  order on code points and `strings.Contains` is the infix relation on the lists
  of characters.
* A Go `map[string]V` is an association list without duplicate keys
  (`AList`).  `range` over a map visits the entries in an unspecified order; the
  model visits them in the order of the association list.
* `time.Now()` is an argument `now` of the operation that reads the clock.
* `sync.RWMutex` serialises the operations; an operation is a function from the
  state before to a result and the state after.
* `strings.ToLower` maps `unicode.ToLower` over the runes of a string.  The rune
  map is the parameter `lr` of the model, so every statement holds for Go's
  Unicode tables as well as for `asciiLower`, its restriction to ASCII.
* A Go `int` is a 64-bit integer: `Memory.counter` is an integer that `nextID`
  wraps into the range from `-2^63` to `2^63 - 1`, as `m.counter++` does.
* `http.Header` keeps its names in canonical form: `Set` and `Get` look a name
  up after `CanonicalMIMEHeaderKey`, and the header of a request that the server
  read holds canonical names.
* The standard library is not part of the repository: `mail.ParseAddress` and
  the execution of the templates are parameters, `net/http`, `strconv` and
  `os.Getenv` are modelled from their documentation.
* A handler is a function from the request and the response writer to the writer
  it leaves, the records it logs and the panic that ended it, if any; the handlers
  that call the store also take and return the store.
-/

namespace Htmxapp

/-! ## Strings -/

/-- Go's `strings.ToLower` over the rune map `lr` (`unicode.ToLower`). -/
def ToLower (lr : Char → Char) (s : String) : String := ⟨s.data.map lr⟩

/-- The rune map `unicode.ToLower` on ASCII: `A`..`Z` go to `a`..`z`, every other
character is left alone. -/
def asciiLower (c : Char) : Char :=
  if 65 ≤ c.toNat ∧ c.toNat ≤ 90 then Char.ofNat (c.toNat + 32) else c

/-- Go's `unicode.IsSpace`: the Unicode White_Space property. -/
def isSpace (c : Char) : Bool :=
  let n := c.toNat
  (9 ≤ n && n ≤ 13) || n == 32 || n == 0x85 || n == 0xA0 || n == 0x1680 ||
  (0x2000 ≤ n && n ≤ 0x200A) || n == 0x2028 || n == 0x2029 || n == 0x202F ||
  n == 0x205F || n == 0x3000

/-- Go's `strings.TrimSpace`: the string without leading and trailing white
space. -/
def TrimSpace (s : String) : String :=
  ⟨((s.data.dropWhile isSpace).reverse.dropWhile isSpace).reverse⟩

/-- Whether `sub` is a prefix of `l`. -/
def hasPrefix : List Char → List Char → Bool
  | [], _ => true
  | _ :: _, [] => false
  | a :: sub, b :: l => a == b && hasPrefix sub l

/-- Whether `sub` occurs in `l` as a contiguous block. -/
def containsChars (sub : List Char) : List Char → Bool
  | [] => hasPrefix sub []
  | b :: l => hasPrefix sub (b :: l) || containsChars sub l

/-- Go's `strings.Contains s sub`. -/
def Contains (s sub : String) : Bool := containsChars sub.data s.data

/-- Lexicographic comparison of two lists of characters by code point. -/
def ltChars : List Char → List Char → Bool
  | _, [] => false
  | [], _ :: _ => true
  | a :: as, b :: bs =>
    if a.toNat < b.toNat then true
    else if b.toNat < a.toNat then false
    else ltChars as bs

/-- Go's `s < t` on strings. -/
def strLt (s t : String) : Bool := ltChars s.data t.data

/-! ## Integers -/

/-- The value a 64-bit Go `int` takes for the integer `x`: `x` wrapped into the
range from `-2^63` to `2^63 - 1`. -/
def wrapInt (x : Int) : Int :=
  (x + 9223372036854775808) % 18446744073709551616 - 9223372036854775808

/-- Go's `strconv.Itoa`, which is also what `fmt.Sprintf("%d", n)` prints. -/
def Itoa (n : Int) : String :=
  if n < 0 then "-" ++ Nat.repr n.natAbs else Nat.repr n.toNat

/-! ## internal/model -/

/-- A `time.Time` instant. -/
abbrev Time := Nat

/-- The record `model.Contact`. -/
structure Contact where
  ID : String
  FirstName : String
  LastName : String
  Email : String
  Phone : String
  CreatedAt : Time
  UpdatedAt : Time
deriving DecidableEq

/-- The sentinel errors of `model/errors.go`. -/
inductive StoreError where
  | ErrNotFound
  | ErrDuplicateEmail
deriving DecidableEq

deriving instance DecidableEq for Except

/-! ## internal/store -/

/-- The struct `store.Memory` (without its mutex). -/
structure Memory where
  data : AList (fun _ : String => Contact)
  emails : AList (fun _ : String => String)
  counter : Int
deriving DecidableEq

/-- The constructor `NewMemory`: two empty maps and the counter at zero. -/
def NewMemory : Memory := { data := ∅, emails := ∅, counter := 0 }

/-- The method `nextID`: increments the counter, which wraps as a Go `int` does,
and formats it with `%d`. -/
def Memory.nextID (m : Memory) : String × Memory :=
  let m1 := { m with counter := wrapInt (m.counter + 1) }
  (Itoa m1.counter, m1)

/-- The method `matches`: some field of `c` contains `q` after lowercasing. -/
def Memory.matches (lr : Char → Char) (c : Contact) (q : String) : Bool :=
  [c.FirstName, c.LastName, c.Email, c.Phone].any (fun f => Contains (ToLower lr f) q)

/-- The comparison function handed to `sort.Slice` in `List`. -/
def less (a b : Contact) : Bool :=
  if a.LastName = b.LastName then strLt a.FirstName b.FirstName
  else strLt a.LastName b.LastName

/-- Go's `sort.Slice`: it reorders the slice so that no element is `lt` one
before it, and promises nothing about the order of elements neither of which is
`lt` the other.  The model is insertion sort. -/
def sortSlice {α : Type} (lt : α → α → Bool) (l : List α) : List α :=
  l.insertionSort (fun a b => lt b a = false)

/-- The method `List` (primed: `List` is Lean's type of lists). -/
def Memory.List' (lr : Char → Char) (m : Memory) (search : String) :
    Except StoreError (List Contact) :=
  let q := ToLower lr (TrimSpace search)
  let result := (m.data.entries.map (fun e => e.2)).filter
    (fun c => q == "" || Memory.matches lr c q)
  .ok (sortSlice less result)

/-- The method `Get`. -/
def Memory.Get (m : Memory) (id : String) : Except StoreError Contact :=
  match m.data.lookup id with
  | none => .error .ErrNotFound
  | some c => .ok c

/-- The method `Create`, with the state it leaves. -/
def Memory.Create (lr : Char → Char) (m : Memory) (now : Time) (c : Contact) :
    Except StoreError Contact × Memory :=
  let email := ToLower lr c.Email
  let dup := match m.emails.lookup email with
    | some existingID => existingID != c.ID
    | none => false
  if dup then (.error .ErrDuplicateEmail, m)
  else
    let (id, m1) := m.nextID
    let c1 := { c with ID := id, CreatedAt := now, UpdatedAt := now }
    (.ok c1, { m1 with data := m1.data.insert c1.ID c1,
                       emails := m1.emails.insert email c1.ID })

/-- The method `Update`, with the state it leaves. -/
def Memory.Update (lr : Char → Char) (m : Memory) (now : Time) (c : Contact) :
    Except StoreError Contact × Memory :=
  match m.data.lookup c.ID with
  | none => (.error .ErrNotFound, m)
  | some existing =>
    let email := ToLower lr c.Email
    let dup := match m.emails.lookup email with
      | some existingID => existingID != c.ID
      | none => false
    if dup then (.error .ErrDuplicateEmail, m)
    else
      let emails1 := m.emails.erase (ToLower lr existing.Email)
      let c1 := { c with CreatedAt := existing.CreatedAt, UpdatedAt := now }
      (.ok c1, { m with data := m.data.insert c1.ID c1,
                        emails := emails1.insert email c1.ID })

/-- The method `Delete`, with the state it leaves. -/
def Memory.Delete (lr : Char → Char) (m : Memory) (id : String) :
    Except StoreError Unit × Memory :=
  match m.data.lookup id with
  | none => (.error .ErrNotFound, m)
  | some c =>
    (.ok (), { m with emails := m.emails.erase (ToLower lr c.Email),
                      data := m.data.erase id })

/-- The method `Count`. -/
def Memory.Count (m : Memory) : Nat := m.data.entries.length

/-- The method `Seed`: creates the five sample contacts; `now i` is what the
clock shows at the `i`-th `Create`. -/
def Memory.Seed (lr : Char → Char) (m : Memory) (now : Nat → Time) : Memory :=
  let samples : List Contact := [
    { ID := "", FirstName := "Alice", LastName := "Johnson", Email := "alice@example.com",
      Phone := "555-0101", CreatedAt := 0, UpdatedAt := 0 },
    { ID := "", FirstName := "Bob", LastName := "Smith", Email := "bob@example.com",
      Phone := "555-0102", CreatedAt := 0, UpdatedAt := 0 },
    { ID := "", FirstName := "Carol", LastName := "Williams", Email := "carol@example.com",
      Phone := "555-0103", CreatedAt := 0, UpdatedAt := 0 },
    { ID := "", FirstName := "David", LastName := "Brown", Email := "david@example.com",
      Phone := "555-0104", CreatedAt := 0, UpdatedAt := 0 },
    { ID := "", FirstName := "Eve", LastName := "Davis", Email := "eve@example.com",
      Phone := "555-0105", CreatedAt := 0, UpdatedAt := 0 }]
  (samples.foldl (fun (st : Memory × Nat) c => ((st.1.Create lr (now st.2) c).2, st.2 + 1))
    (m, 0)).1

/-! ## Runs of the store -/

/-- A mutating call on the store. -/
inductive Op where
  | create (now : Time) (c : Contact)
  | update (now : Time) (c : Contact)
  | delete (id : String)
deriving DecidableEq

/-- The state one call leaves. -/
def Memory.step (lr : Char → Char) (m : Memory) : Op → Memory
  | .create now c => (m.Create lr now c).2
  | .update now c => (m.Update lr now c).2
  | .delete id => (m.Delete lr id).2

/-- The state a sequence of calls leaves. -/
def Memory.run (lr : Char → Char) (m : Memory) (ops : List Op) : Memory :=
  ops.foldl (Memory.step lr) m

/-- The states a store built by `NewMemory` can be in. -/
def Reachable (lr : Char → Char) (s : Memory) : Prop :=
  ∃ ops : List Op, NewMemory.run lr ops = s

/-- The IDs the successful `Create` calls of a run return, in order. -/
def createdIDs (lr : Char → Char) : Memory → List Op → List String
  | _, [] => []
  | m, .create now c :: ops =>
    match (m.Create lr now c).1 with
    | .ok r => r.ID :: createdIDs lr (m.Create lr now c).2 ops
    | .error _ => createdIDs lr (m.Create lr now c).2 ops
  | m, .update now c :: ops => createdIDs lr (m.Update lr now c).2 ops
  | m, .delete id :: ops => createdIDs lr (m.Delete lr id).2 ops

/-- The live contacts: the values of the map `data`. -/
def Memory.contacts (m : Memory) : List Contact := m.data.entries.map (fun e => e.2)

/-- No two live contacts with different IDs have the same lowercased email. -/
def EmailsUnique (lr : Char → Char) (m : Memory) : Prop :=
  ∀ a ∈ m.contacts, ∀ b ∈ m.contacts, a.ID ≠ b.ID → ToLower lr a.Email ≠ ToLower lr b.Email

instance (lr : Char → Char) (m : Memory) : Decidable (EmailsUnique lr m) := by
  unfold EmailsUnique; infer_instance

/-- The order `sort.Slice` establishes in `List`: by last name, then by first
name. -/
def nameLE (a b : Contact) : Prop :=
  a.LastName < b.LastName ∨ (a.LastName = b.LastName ∧ a.FirstName ≤ b.FirstName)

/-- The value of a decimal digit. -/
def digitVal (c : Char) : Nat := c.toNat - 48

/-- The number that the decimal digits `cs` denote when they follow digits
denoting `acc`. -/
def parseDigits (cs : List Char) (acc : Nat) : Nat :=
  cs.foldl (fun a c => a * 10 + digitVal c) acc

/-- A contact as a caller of the store writes it: the timestamps are zero. -/
def contactLit (id first last email phone : String) : Contact :=
  { ID := id, FirstName := first, LastName := last, Email := email, Phone := phone,
    CreatedAt := 0, UpdatedAt := 0 }

/-- The store of `newTestStore` in `memory_test.go`, created at the instants
1, 2 and 3. -/
def newTestStore : Memory :=
  NewMemory.run asciiLower [
    .create 1 (contactLit "" "Alice" "Johnson" "alice@example.com" "555-0001"),
    .create 2 (contactLit "" "Bob" "Smith" "bob@example.com" "555-0002"),
    .create 3 (contactLit "" "Carol" "Williams" "carol@example.com" "")]

/-- A run of `n` rounds for a store whose counter has been incremented `j` times:
every round is a `Create` of the contact `c` and the `Delete` of the ID that
`Create` issues. -/
def churn (c : Contact) : Nat → Nat → List Op
  | _, 0 => []
  | j, n + 1 =>
    .create 0 c :: .delete (Itoa (wrapInt ((j + 1 : Nat) : Int))) :: churn c (j + 1) n

/-- Every contact is stored under its own ID. -/
def KeysAreIDs (m : Memory) : Prop :=
  ∀ (k : String) (c : Contact), m.data.lookup k = some c → c.ID = k

/-- The email index is exactly the map from the lowercased email of every live
contact to the ID it is stored under. -/
def IndexExact (lr : Char → Char) (m : Memory) : Prop :=
  (∀ (k : String) (c : Contact), m.data.lookup k = some c →
    m.emails.lookup (ToLower lr c.Email) = some k) ∧
  (∀ (e id : String), m.emails.lookup e = some id →
    ∃ c, m.data.lookup id = some c ∧ ToLower lr c.Email = e)

/-- No contact is stored under the empty ID. -/
def KeysNonEmpty (m : Memory) : Prop :=
  ∀ (k : String) (c : Contact), m.data.lookup k = some c → k ≠ ""

/-- The counter has been incremented `n` times, and every ID in use was issued by
`nextID` at one of these increments. -/
def Issued (m : Memory) (n : Nat) : Prop :=
  m.counter = wrapInt n ∧
  ∀ (k : String) (c : Contact), m.data.lookup k = some c →
    ∃ j : Nat, 1 ≤ j ∧ j ≤ n ∧ k = Itoa (wrapInt j)

/-- The calls in which `Create` gets a contact without an ID, as from
`contactFromForm` and `Seed`. -/
def Op.createsWithoutID : Op → Prop
  | .create _ c => c.ID = ""
  | .update _ _ => True
  | .delete _ => True

/-- The invariant of the stores built through the handlers: contacts are stored
under their own ID, which is not empty, and the email index is exact. -/
def StoreInv (lr : Char → Char) (m : Memory) : Prop :=
  KeysAreIDs m ∧ KeysNonEmpty m ∧ IndexExact lr m

/-! ## internal/model: validation -/

/-- The method `Contact.FullName`. -/
def Contact.FullName (c : Contact) : String := TrimSpace (c.FirstName ++ " " ++ c.LastName)

/-- The method `Contact.Validate`.  `mail.ParseAddress` is Go's standard library:
`parseAddress s` tells whether it accepts `s`. -/
def Contact.Validate (parseAddress : String → Bool) (c : Contact) :
    AList (fun _ : String => String) :=
  let errs : AList (fun _ : String => String) := ∅
  let errs := if TrimSpace c.FirstName = "" then errs.insert "FirstName" "First name is required"
    else errs
  let errs := if TrimSpace c.LastName = "" then errs.insert "LastName" "Last name is required"
    else errs
  let errs :=
    if TrimSpace c.Email = "" then errs.insert "Email" "Email is required"
    else if parseAddress c.Email = false then
      errs.insert "Email" ("Invalid email address: " ++ c.Email)
    else errs
  errs

/-- A stand-in for `mail.ParseAddress` in examples: it accepts the strings with
an `@`. -/
def acceptsAt (s : String) : Bool := Contains s "@"

/-! ## internal/server: configuration -/

/-- The struct `server.Config`. -/
structure Config where
  Host : String
  Port : Int
  Seed : Bool
deriving DecidableEq

/-- The process environment: the variables that are set, with their values. -/
abbrev Env := AList (fun _ : String => String)

/-- Go's `os.Getenv`: the value of the variable, empty when it is not set. -/
def Getenv (env : Env) (key : String) : String := (env.lookup key).getD ""

/-- Whether a character is one of `0`..`9`. -/
def isDigit (c : Char) : Bool := 48 ≤ c.toNat && c.toNat ≤ 57

/-- Go's `strconv.Atoi` for a 64-bit `int`: an optional sign and at least one
decimal digit, with a value from `-2^63` to `2^63 - 1`; `none` is an error. -/
def Atoi (s : String) : Option Int :=
  let signed : Bool × List Char := match s.data with
    | '+' :: rest => (false, rest)
    | '-' :: rest => (true, rest)
    | cs => (false, cs)
  if signed.2 = [] ∨ signed.2.all isDigit = false then none
  else
    let n : Int := parseDigits signed.2 0
    let v : Int := if signed.1 then -n else n
    if v < -(2 : Int) ^ 63 ∨ (2 : Int) ^ 63 - 1 < v then none else some v

/-- The function `DefaultConfig`. -/
def DefaultConfig : Config := { Host := "", Port := 8080, Seed := true }

/-- The function `FromEnv`, reading the environment `env`. -/
def FromEnv (env : Env) : Config :=
  let cfg := DefaultConfig
  let host := Getenv env "HTMXAPP_HOST"
  let cfg := if host ≠ "" then { cfg with Host := host } else cfg
  let port := Getenv env "HTMXAPP_PORT"
  let cfg := if port ≠ "" then
      match Atoi port with
      | some p => { cfg with Port := p }
      | none => cfg
    else cfg
  let seed := Getenv env "HTMXAPP_SEED"
  let cfg := if seed = "false" ∨ seed = "0" then { cfg with Seed := false } else cfg
  cfg

/-- The method `Config.Addr`. -/
def Config.Addr (c : Config) : String := c.Host ++ ":" ++ Itoa c.Port

/-! ## net/http

The part of Go's `net/http` the handlers use, modelled from its documentation:
header maps and form values are reduced to the first value of each name; `Get`
and `Set` on a header map take the name in its canonical form, form values are
looked up by the name as it is written; a response writer keeps the first status
written, and a write before any status writes status 200. -/

/-- A map from names to values, as `http.Header` and `url.Values`. -/
abbrev Values := AList (fun _ : String => String)

/-- `Get` on `url.Values`: the value of the name, empty when absent. -/
def valuesGet (v : Values) (key : String) : String := (v.lookup key).getD ""

/-- The bytes a header name may consist of (`validHeaderFieldByte`): letters,
digits and the other token characters. -/
def validHeaderFieldByte (c : Char) : Bool :=
  let n := c.toNat
  (48 ≤ n && n ≤ 57) || (65 ≤ n && n ≤ 90) || (97 ≤ n && n ≤ 122) ||
  n == 33 || (35 ≤ n && n ≤ 39) || n == 42 || n == 43 || n == 45 || n == 46 ||
  n == 94 || n == 95 || n == 96 || n == 124 || n == 126

/-- The letters of a header name in canonical case: upper case at the start and
after a hyphen, lower case elsewhere. -/
def canonicalChars : Bool → List Char → List Char
  | _, [] => []
  | upper, c :: cs =>
    let c1 :=
      if upper && (97 ≤ c.toNat && c.toNat ≤ 122) then Char.ofNat (c.toNat - 32)
      else if !upper && (65 ≤ c.toNat && c.toNat ≤ 90) then Char.ofNat (c.toNat + 32)
      else c
    c1 :: canonicalChars (c1 == '-') cs

/-- Go's `textproto.CanonicalMIMEHeaderKey`: a name of valid header bytes in
canonical case, any other string unchanged. -/
def CanonicalMIMEHeaderKey (s : String) : String :=
  if s.data.all validHeaderFieldByte then ⟨canonicalChars true s.data⟩ else s

/-- `Get` on `http.Header`: the value under the canonical form of the name, empty
when absent. -/
def headerGet (h : Values) (key : String) : String :=
  (h.lookup (CanonicalMIMEHeaderKey key)).getD ""

/-- `Set` on `http.Header`: the value goes under the canonical form of the
name. -/
def headerSet (h : Values) (key value : String) : Values :=
  h.insert (CanonicalMIMEHeaderKey key) value

/-- What the handlers read of an `*http.Request`. -/
structure Request where
  Method : String
  Path : String
  Query : Values
  Form : Values
  PathValues : Values
  Header : Values
  RequestID : Option String

/-- The method `r.FormValue`. -/
def Request.FormValue (r : Request) (key : String) : String := valuesGet r.Form key

/-- The method `r.PathValue`. -/
def Request.PathValue (r : Request) (key : String) : String := valuesGet r.PathValues key

/-- The response as the server holds it: the header map under construction, the
status written (none yet: `none`), the header as written with the status, and
the body. -/
structure Response where
  header : Values
  code : Option Nat
  sent : Values
  body : String
deriving DecidableEq

/-- The status the client receives: the one written, or 200 when the handler
returned without writing one. -/
def Response.Code (resp : Response) : Nat := resp.code.getD 200

/-- `WriteHeader` on the server's writer: the first status written stands. -/
def Response.WriteHeader (resp : Response) (code : Nat) : Response :=
  match resp.code with
  | some _ => resp
  | none => { resp with code := some code, sent := resp.header }

/-- `Write` on the server's writer: writes status 200 first when no status was
written. -/
def Response.Write (resp : Response) (b : String) : Response :=
  let resp1 := resp.WriteHeader 200
  { resp1 with body := resp1.body ++ b }

/-- The implementations of `http.ResponseWriter` in the program: the writer of
the server (or of `httptest.NewRecorder`) and the `statusWriter` of
`middleware.go` around another writer. -/
inductive ResponseWriter where
  | server (resp : Response)
  | statusWriter (inner : ResponseWriter) (status : Nat) (wrote : Bool)
deriving DecidableEq

/-- The writer `httptest.NewRecorder()` returns. -/
def NewRecorder : ResponseWriter :=
  .server { header := ∅, code := none, sent := ∅, body := "" }

/-- The response at the bottom of a writer. -/
def ResponseWriter.response : ResponseWriter → Response
  | .server resp => resp
  | .statusWriter inner _ _ => inner.response

/-- The method `Header` (of the embedded writer, for a `statusWriter`). -/
def ResponseWriter.Header : ResponseWriter → Values
  | .server resp => resp.header
  | .statusWriter inner _ _ => inner.Header

/-- The call `w.Header().Set(key, value)`. -/
def ResponseWriter.setHeader (key value : String) : ResponseWriter → ResponseWriter
  | .server resp => .server { resp with header := headerSet resp.header key value }
  | .statusWriter inner status wrote => .statusWriter (inner.setHeader key value) status wrote

/-- The method `WriteHeader`; for a `statusWriter`, the method of
`middleware.go`. -/
def ResponseWriter.WriteHeader (code : Nat) : ResponseWriter → ResponseWriter
  | .server resp => .server (resp.WriteHeader code)
  | .statusWriter inner status wrote =>
    .statusWriter (inner.WriteHeader code) (if wrote then status else code) true

/-- The method `Write`; for a `statusWriter`, the method of `middleware.go`. -/
def ResponseWriter.Write (b : String) : ResponseWriter → ResponseWriter
  | .server resp => .server (resp.Write b)
  | .statusWriter inner status _ => .statusWriter (inner.Write b) status true

/-- Go's `http.Error`: the content type of plain text, the status, the message
and a newline. -/
def httpError (w : ResponseWriter) (error : String) (code : Nat) : ResponseWriter :=
  let w := w.setHeader "Content-Type" "text/plain; charset=utf-8"
  let w := w.setHeader "X-Content-Type-Options" "nosniff"
  let w := w.WriteHeader code
  w.Write (error ++ "\n")

/-- Go's `http.NotFound`. -/
def httpNotFound (w : ResponseWriter) : ResponseWriter := httpError w "404 page not found" 404

/-- Go's `http.StatusText`, for the statuses the program writes. -/
def StatusText (code : Nat) : String :=
  if code = 200 then "OK"
  else if code = 303 then "See Other"
  else if code = 404 then "Not Found"
  else if code = 422 then "Unprocessable Entity"
  else if code = 500 then "Internal Server Error"
  else ""

/-- Go's `http.Redirect` to a target that is an absolute path of plain
characters, as `/contacts` is: the target becomes the `Location`, and a request
with the method GET gets a short body. -/
def httpRedirect (w : ResponseWriter) (r : Request) (url : String) (code : Nat) :
    ResponseWriter :=
  let hadCT := (w.Header.lookup "Content-Type").isSome
  let w := w.setHeader "Location" url
  let w := if !hadCT && (r.Method = "GET" || r.Method = "HEAD") then
      w.setHeader "Content-Type" "text/html; charset=utf-8"
    else w
  let w := w.WriteHeader code
  if !hadCT && r.Method = "GET" then
    w.Write ("<a href=\"" ++ url ++ "\">" ++ StatusText code ++ "</a>.\n\n")
  else w

/-! ## log/slog -/

/-- The value of an attribute of a log record. -/
inductive LogValue where
  | str (s : String)
  | int (n : Nat)
  | err (text : String)
deriving DecidableEq

/-- A record handed to `slog`. -/
structure LogRecord where
  level : String
  msg : String
  attrs : List (String × LogValue)
deriving DecidableEq

/-! ## internal/tmpl -/

/-- The data the handlers pass to the templates. -/
inductive TemplateData where
  | nil
  | contactListData (Contacts : List Contact) (Count : Nat) (Search : String)
  | contactFormData (Contact : Contact) (Errors : Values)
  | contacts (rows : List Contact)

/-- The struct `tmpl.Renderer`: the names of the page and of the partial
templates, and what executing them (`html/template`, on template files that are
not Go source) writes and returns: the chunks written and the text of the
error, if any. -/
structure Renderer where
  pages : List String
  partials : List String
  executePage : String → TemplateData → List String × Option String
  executePartial : String → TemplateData → List String × Option String

/-- The method `RenderPage`: the writer after the call and the text of the error
returned, if any (for a missing template, with the name in quotes as `%q` prints
a plain name). -/
def Renderer.RenderPage (rn : Renderer) (w : ResponseWriter) (name : String)
    (data : TemplateData) : ResponseWriter × Option String :=
  if name ∈ rn.pages then
    let out := rn.executePage name data
    (out.1.foldl (fun w b => w.Write b) w, out.2)
  else (w, some ("page template \"" ++ name ++ "\" not found"))

/-- The method `RenderPartial`. -/
def Renderer.RenderPartial (rn : Renderer) (w : ResponseWriter) (name : String)
    (data : TemplateData) : ResponseWriter × Option String :=
  if name ∈ rn.partials then
    let out := rn.executePartial name data
    (out.1.foldl (fun w b => w.Write b) w, out.2)
  else (w, some ("partial template \"" ++ name ++ "\" not found"))

/-! ## internal/handler -/

/-- The struct `handler.Handler`; its store is the `Memory` that the handlers
below take and return. -/
structure Handler where
  renderer : Renderer

/-- The function `isHTMX`. -/
def isHTMX (r : Request) : Bool := headerGet r.Header "HX-Request" = "true"

/-- The function `contactFromForm`. -/
def contactFromForm (r : Request) : Contact :=
  { ID := "", FirstName := r.FormValue "first_name", LastName := r.FormValue "last_name",
    Email := r.FormValue "email", Phone := r.FormValue "phone", CreatedAt := 0, UpdatedAt := 0 }

/-- What a call of a handler leaves: the writer, the records logged, and the
value of the panic when a panic ended the call. -/
structure Outcome where
  w : ResponseWriter
  logs : List LogRecord
  panic : Option String

/-- An `http.Handler`. -/
abbrev HandlerFunc := Request → ResponseWriter → Outcome

/-- The record `slog.Error(msg, "error", err)` logs when `err` is not nil. -/
def logRenderError (msg : String) : Option String → List LogRecord
  | some text => [{ level := "ERROR", msg := msg, attrs := [("error", .err text)] }]
  | none => []

/-- The method `Home`. -/
def Handler.Home (h : Handler) (_r : Request) (w : ResponseWriter) : Outcome :=
  match h.renderer.RenderPage w "home" .nil with
  | (w1, some _) => { w := httpError w1 "Internal Server Error" 500, logs := [], panic := none }
  | (w1, none) => { w := w1, logs := [], panic := none }

/-- The method `ListContacts`. -/
def Handler.ListContacts (lr : Char → Char) (h : Handler) (s : Memory) (r : Request)
    (w : ResponseWriter) : Outcome :=
  let q := valuesGet r.Query "q"
  match s.List' lr q with
  | .error _ => { w := httpError w "Internal Server Error" 500, logs := [], panic := none }
  | .ok contacts =>
    let data := TemplateData.contactListData contacts s.Count q
    let res := h.renderer.RenderPage w "contacts" data
    { w := res.1, logs := logRenderError "render contacts page" res.2, panic := none }

/-- The method `SearchContacts`. -/
def Handler.SearchContacts (lr : Char → Char) (h : Handler) (s : Memory) (r : Request)
    (w : ResponseWriter) : Outcome :=
  let q := valuesGet r.Query "q"
  match s.List' lr q with
  | .error _ => { w := httpError w "Internal Server Error" 500, logs := [], panic := none }
  | .ok contacts =>
    let res := h.renderer.RenderPartial w "contact-rows" (.contacts contacts)
    { w := res.1, logs := logRenderError "render contact rows" res.2, panic := none }

/-- The method `NewContact`. -/
def Handler.NewContact (h : Handler) (_r : Request) (w : ResponseWriter) : Outcome :=
  let data := TemplateData.contactFormData (contactLit "" "" "" "" "") ∅
  let res := h.renderer.RenderPage w "contact-form" data
  { w := res.1, logs := logRenderError "render new contact form" res.2, panic := none }

/-- The method `CreateContact`, with the store it leaves. -/
def Handler.CreateContact (lr : Char → Char) (parseAddress : String → Bool) (h : Handler)
    (s : Memory) (now : Time) (r : Request) (w : ResponseWriter) : Outcome × Memory :=
  let c := contactFromForm r
  let errs := c.Validate parseAddress
  if errs.entries.length > 0 then
    let w1 := w.WriteHeader 422
    let res := h.renderer.RenderPage w1 "contact-form" (.contactFormData c errs)
    ({ w := res.1, logs := logRenderError "render form with errors" res.2, panic := none }, s)
  else
    match s.Create lr now c with
    | (.error e, s1) =>
      if e = .ErrDuplicateEmail then
        let w1 := w.WriteHeader 422
        let res := h.renderer.RenderPage w1 "contact-form" (.contactFormData c
          (AList.singleton "Email" "A contact with this email already exists"))
        ({ w := res.1, logs := logRenderError "render form with duplicate error" res.2,
           panic := none }, s1)
      else
        ({ w := httpError w "Internal Server Error" 500, logs := [], panic := none }, s1)
    | (.ok created, s1) =>
      ({ w := httpRedirect w r "/contacts" 303,
         logs := [{ level := "INFO", msg := "contact created",
                    attrs := [("id", .str created.ID), ("name", .str created.FullName)] }],
         panic := none }, s1)

/-- The method `EditContact`. -/
def Handler.EditContact (h : Handler) (s : Memory) (r : Request) (w : ResponseWriter) :
    Outcome :=
  let id := r.PathValue "id"
  match s.Get id with
  | .error e =>
    if e = .ErrNotFound then { w := httpNotFound w, logs := [], panic := none }
    else { w := httpError w "Internal Server Error" 500, logs := [], panic := none }
  | .ok c =>
    let res := h.renderer.RenderPage w "contact-form" (.contactFormData c ∅)
    { w := res.1, logs := logRenderError "render edit form" res.2, panic := none }

/-- The method `UpdateContact`, with the store it leaves. -/
def Handler.UpdateContact (lr : Char → Char) (parseAddress : String → Bool) (h : Handler)
    (s : Memory) (now : Time) (r : Request) (w : ResponseWriter) : Outcome × Memory :=
  let id := r.PathValue "id"
  let c := { contactFromForm r with ID := id }
  let errs := c.Validate parseAddress
  if errs.entries.length > 0 then
    let w1 := w.WriteHeader 422
    let res := h.renderer.RenderPage w1 "contact-form" (.contactFormData c errs)
    ({ w := res.1, logs := logRenderError "render edit form with errors" res.2,
       panic := none }, s)
  else
    match s.Update lr now c with
    | (.error e, s1) =>
      if e = .ErrNotFound then ({ w := httpNotFound w, logs := [], panic := none }, s1)
      else if e = .ErrDuplicateEmail then
        let w1 := w.WriteHeader 422
        let res := h.renderer.RenderPage w1 "contact-form" (.contactFormData c
          (AList.singleton "Email" "A contact with this email already exists"))
        ({ w := res.1, logs := logRenderError "render edit form with duplicate error" res.2,
           panic := none }, s1)
      else
        ({ w := httpError w "Internal Server Error" 500, logs := [], panic := none }, s1)
    | (.ok updated, s1) =>
      ({ w := httpRedirect w r "/contacts" 303,
         logs := [{ level := "INFO", msg := "contact updated",
                    attrs := [("id", .str updated.ID), ("name", .str updated.FullName)] }],
         panic := none }, s1)

/-- The method `DeleteContact`, with the store it leaves. -/
def Handler.DeleteContact (lr : Char → Char) (_h : Handler) (s : Memory) (r : Request)
    (w : ResponseWriter) : Outcome × Memory :=
  let id := r.PathValue "id"
  match s.Delete lr id with
  | (.error e, s1) =>
    if e = .ErrNotFound then ({ w := httpNotFound w, logs := [], panic := none }, s1)
    else ({ w := httpError w "Internal Server Error" 500, logs := [], panic := none }, s1)
  | (.ok _, s1) =>
    let logs : List LogRecord :=
      [{ level := "INFO", msg := "contact deleted", attrs := [("id", .str id)] }]
    if isHTMX r then ({ w := w.WriteHeader 200, logs := logs, panic := none }, s1)
    else ({ w := httpRedirect w r "/contacts" 303, logs := logs, panic := none }, s1)

/-! ### middleware.go -/

/-- The function `RequestID`: the ID in the context of the request, empty when
there is none. -/
def RequestID (r : Request) : String := r.RequestID.getD ""

/-- The writer a `statusWriter` wraps; a handler gets a `statusWriter` from
`Logging` and leaves one. -/
def ResponseWriter.unwrap : ResponseWriter → ResponseWriter
  | .statusWriter inner _ _ => inner
  | .server resp => .server resp

/-- The field `status` of a `statusWriter`. -/
def ResponseWriter.status : ResponseWriter → Nat
  | .statusWriter _ status _ => status
  | .server _ => 200

/-- The record `Logging` hands to `slog.Info`; `duration` is the text of
`time.Since(start)`. -/
def accessRecord (r : Request) (status : Nat) (duration : String) : LogRecord :=
  { level := "INFO", msg := "request",
    attrs := [("method", .str r.Method), ("path", .str r.Path), ("status", .int status),
              ("duration", .str duration), ("request_id", .str (RequestID r))] }

/-- The middleware `Logging`.  It logs after `next` has returned; a panic in
`next` passes through it. -/
def Logging (duration : String) (next : HandlerFunc) : HandlerFunc := fun r w =>
  let sw := ResponseWriter.statusWriter w 200 false
  let out := next r sw
  match out.panic with
  | some v => { w := out.w.unwrap, logs := out.logs, panic := some v }
  | none =>
    { w := out.w.unwrap, logs := out.logs ++ [accessRecord r out.w.status duration],
      panic := none }

/-- The record `Recovery` hands to `slog.Error`. -/
def panicRecord (r : Request) (v : String) : LogRecord :=
  { level := "ERROR", msg := "panic recovered",
    attrs := [("error", .err v), ("path", .str r.Path)] }

/-- The middleware `Recovery`. -/
def Recovery (next : HandlerFunc) : HandlerFunc := fun r w =>
  let out := next r w
  match out.panic with
  | some v =>
    { w := httpError out.w "Internal Server Error" 500, logs := out.logs ++ [panicRecord r v],
      panic := none }
  | none => out

/-- The middleware `RequestIDMiddleware`; `id` is what `generateID` returns. -/
def RequestIDMiddleware (id : String) (next : HandlerFunc) : HandlerFunc := fun r w =>
  next { r with RequestID := some id } (w.setHeader "X-Request-ID" id)

/-- The middleware stack `Run` builds around the routes. -/
def stack (id duration : String) (routes : HandlerFunc) : HandlerFunc :=
  RequestIDMiddleware id (Recovery (Logging duration routes))

/-! ### Examples of the handler tests -/

/-- A renderer with the four templates of the repository, each writing one
chunk and returning no error. -/
def testRenderer : Renderer :=
  { pages := ["home", "contacts", "contact-form"], partials := ["contact-rows"],
    executePage := fun name _ => (["<html>" ++ name ++ "</html>"], none),
    executePartial := fun name _ => (["<tr>" ++ name ++ "</tr>"], none) }

/-- The value `&tmpl.Renderer{}`: a renderer without templates. -/
def emptyRenderer : Renderer :=
  { pages := [], partials := [], executePage := fun _ _ => ([], none),
    executePartial := fun _ _ => ([], none) }

/-- A request with a method, a path, form fields, path values and headers; the
names of the headers are put in canonical form, as the server and `Header.Set`
do. -/
def requestLit (method path : String) (form pathValues header : List (String × String)) :
    Request :=
  { Method := method, Path := path, Query := ∅,
    Form := form.foldr (fun p m => m.insert p.1 p.2) ∅,
    PathValues := pathValues.foldr (fun p m => m.insert p.1 p.2) ∅,
    Header := header.foldr (fun p m => headerSet m p.1 p.2) ∅,
    RequestID := none }

/-- The inner handler of `TestRecovery`: it panics at once. -/
def panicsAtOnce : HandlerFunc := fun _ w => { w := w, logs := [], panic := some "test panic" }

/-- A handler that writes the status 200 and then panics. -/
def panicsAfterStatus : HandlerFunc := fun _ w =>
  { w := w.WriteHeader 200, logs := [], panic := some "late panic" }

/-! # Theorems -/

/-! ### Decimal formatting -/

theorem digitVal_digitChar (k : Nat) (hk : k < 10) : digitVal (Nat.digitChar k) = k := by
  interval_cases k <;> decide

theorem parseDigits_toDigitsCore (fuel : Nat) :
    ∀ (n : Nat) (ds : List Char), n < fuel →
      parseDigits (Nat.toDigitsCore 10 fuel n ds) 0 = parseDigits ds n := by
  induction fuel with
  | zero => intro n ds h; omega
  | succ fuel ih =>
    intro n ds h
    have hd : digitVal (Nat.digitChar (n % 10)) = n % 10 :=
      digitVal_digitChar _ (Nat.mod_lt _ (by decide))
    unfold Nat.toDigitsCore
    by_cases h0 : n / 10 = 0
    · simp only [h0, if_true]
      have hn : n % 10 = n := by omega
      rw [hn] at hd
      simp only [parseDigits, List.foldl_cons, Nat.zero_mul, Nat.zero_add, hn, hd]
    · simp only [h0, if_false]
      rw [ih (n / 10) _ (by omega)]
      have : n / 10 * 10 + n % 10 = n := by omega
      simp [parseDigits, hd, this]

theorem parseDigits_repr (n : Nat) : parseDigits (Nat.repr n).data 0 = n := by
  have := parseDigits_toDigitsCore (n + 1) n [] (by omega)
  simpa [Nat.repr, Nat.toDigits, List.asString, parseDigits] using this

theorem repr_injective : Function.Injective Nat.repr := by
  intro a b h
  have := congrArg (fun s => parseDigits s.data 0) h
  simpa [parseDigits_repr] using this

theorem toDigitsCore_ne_nil (fuel : Nat) :
    ∀ (n : Nat) (ds : List Char), ds ≠ [] → Nat.toDigitsCore 10 fuel n ds ≠ [] := by
  induction fuel with
  | zero => intro n ds h; simpa [Nat.toDigitsCore] using h
  | succ fuel ih =>
    intro n ds _
    unfold Nat.toDigitsCore
    by_cases h0 : n / 10 = 0
    · simp [h0]
    · simp only [h0, if_false]
      exact ih _ _ (by simp)

theorem repr_ne_empty (n : Nat) : Nat.repr n ≠ "" := by
  intro h
  have h1 : (Nat.repr n).data = [] := by rw [h]
  have h2 : Nat.toDigitsCore 10 (n + 1) n [] ≠ [] := by
    unfold Nat.toDigitsCore
    by_cases h0 : n / 10 = 0
    · simp [h0]
    · simp only [h0, if_false]
      exact toDigitsCore_ne_nil _ _ _ (by simp)
  exact h2 (by simpa [Nat.repr, Nat.toDigits, List.asString] using h1)

theorem digitChar_ne_minus (d : Nat) (hd : d < 10) : Nat.digitChar d ≠ '-' := by
  interval_cases d <;> decide

theorem toDigitsCore_no_minus (fuel : Nat) :
    ∀ (n : Nat) (ds : List Char), '-' ∉ ds → '-' ∉ Nat.toDigitsCore 10 fuel n ds := by
  induction fuel with
  | zero => intro n ds h; simpa [Nat.toDigitsCore] using h
  | succ fuel ih =>
    intro n ds h
    have hd : Nat.digitChar (n % 10) ≠ '-' := digitChar_ne_minus _ (Nat.mod_lt _ (by decide))
    have hcons : '-' ∉ Nat.digitChar (n % 10) :: ds := by
      intro hmem
      rcases List.mem_cons.1 hmem with h1 | h1
      · exact hd h1.symm
      · exact h h1
    unfold Nat.toDigitsCore
    by_cases h0 : n / 10 = 0
    · simp only [h0, if_true]; exact hcons
    · simp only [h0, if_false]; exact ih _ _ hcons

theorem repr_no_minus (n : Nat) : '-' ∉ (Nat.repr n).data := by
  have := toDigitsCore_no_minus (n + 1) n [] (by simp)
  simpa [Nat.repr, Nat.toDigits, List.asString] using this

theorem Itoa_of_nonneg (n : Int) (h : 0 ≤ n) : Itoa n = Nat.repr n.toNat := by
  unfold Itoa
  rw [if_neg (by omega)]

theorem Itoa_of_neg (n : Int) (h : n < 0) : Itoa n = "-" ++ Nat.repr n.natAbs := by
  unfold Itoa
  rw [if_pos h]

theorem Itoa_natCast (n : Nat) : Itoa (n : Int) = Nat.repr n := by
  rw [Itoa_of_nonneg _ (by omega)]; simp

theorem Itoa_ne_empty (n : Int) : Itoa n ≠ "" := by
  by_cases h : n < 0
  · rw [Itoa_of_neg n h]
    intro he
    have := congrArg String.data he
    simp at this
  · rw [Itoa_of_nonneg n (by omega)]
    exact repr_ne_empty _

theorem Itoa_injective : Function.Injective Itoa := by
  intro a b hab
  by_cases ha : a < 0 <;> by_cases hb : b < 0
  · rw [Itoa_of_neg a ha, Itoa_of_neg b hb] at hab
    have h1 := congrArg String.data hab
    simp only [String.data_append, List.append_cancel_left_eq] at h1
    have h2 : Nat.repr a.natAbs = Nat.repr b.natAbs := String.ext h1
    have := repr_injective h2
    omega
  · rw [Itoa_of_neg a ha, Itoa_of_nonneg b (by omega)] at hab
    exfalso
    apply repr_no_minus b.toNat
    rw [← hab]
    simp
  · rw [Itoa_of_nonneg a (by omega), Itoa_of_neg b hb] at hab
    exfalso
    apply repr_no_minus a.toNat
    rw [hab]
    simp
  · rw [Itoa_of_nonneg a (by omega), Itoa_of_nonneg b (by omega)] at hab
    have := repr_injective hab
    omega

theorem wrapInt_of_inRange (x : Int) (h1 : -9223372036854775808 ≤ x)
    (h2 : x < 9223372036854775808) : wrapInt x = x := by
  unfold wrapInt; omega

theorem wrapInt_add_wrapInt (x y : Int) : wrapInt (wrapInt x + y) = wrapInt (x + y) := by
  unfold wrapInt; omega

/-- Two counts that `wrapInt` sends to one value differ by a multiple of `2^64`. -/
theorem wrapInt_natCast_inj (i j : Nat) (h : wrapInt i = wrapInt j) (hij : i ≤ j)
    (hlt : j < i + 18446744073709551616) : i = j := by
  unfold wrapInt at h; omega

/-! ### String order and substrings -/

theorem char_eq_of_toNat_eq {a b : Char} (h : a.toNat = b.toNat) : a = b := by
  have h1 := Char.ofNat_toNat a
  have h2 := Char.ofNat_toNat b
  rw [← h1, ← h2, h]

theorem ltChars_iff (as : List Char) : ∀ bs : List Char, ltChars as bs = true ↔ as < bs := by
  induction as with
  | nil =>
    intro bs
    cases bs with
    | nil => simp [ltChars]
    | cons b bs => simpa [ltChars] using List.Lex.nil
  | cons a as ih =>
    intro bs
    cases bs with
    | nil => simp [ltChars]
    | cons b bs =>
      have hlt : ∀ x y : Char, x < y ↔ x.toNat < y.toNat := fun x y => Iff.rfl
      simp only [ltChars]
      constructor
      · intro h
        by_cases h1 : a.toNat < b.toNat
        · exact List.Lex.rel ((hlt a b).2 h1)
        · by_cases h2 : b.toNat < a.toNat
          · simp [h1, h2] at h
          · simp only [h1, h2, if_false] at h
            have hab : a = b := char_eq_of_toNat_eq (by omega)
            subst hab
            exact List.Lex.cons ((ih bs).1 h)
      · intro h
        cases h with
        | rel h' => simp [(hlt a b).1 h']
        | cons h3 =>
          simp only [lt_irrefl, if_false]
          exact (ih bs).2 h3

theorem strLt_iff (s t : String) : strLt s t = true ↔ s < t := by
  rw [String.lt_iff_toList_lt]
  exact ltChars_iff _ _


theorem hasPrefix_iff (sub : List Char) : ∀ l : List Char, hasPrefix sub l = true ↔ sub <+: l := by
  induction sub with
  | nil => intro l; simp [hasPrefix]
  | cons a sub ih =>
    intro l
    cases l with
    | nil => simp [hasPrefix]
    | cons b l => simp [hasPrefix, ih l, List.cons_prefix_cons]

theorem containsChars_iff (sub l : List Char) : containsChars sub l = true ↔ sub <:+: l := by
  induction l with
  | nil => simp [containsChars, hasPrefix_iff]
  | cons b l ih => simp [containsChars, hasPrefix_iff, ih, List.infix_cons_iff]

theorem Contains_iff (s sub : String) : Contains s sub = true ↔ sub.data <:+: s.data :=
  containsChars_iff _ _

theorem matches_iff (lr : Char → Char) (c : Contact) (q : String) :
    Memory.matches lr c q = true ↔
      ∃ f ∈ [c.FirstName, c.LastName, c.Email, c.Phone], q.data <:+: (ToLower lr f).data := by
  simp [Memory.matches, Contains_iff]

theorem less_eq_false_iff (a b : Contact) : less b a = false ↔ nameLE a b := by
  unfold less nameLE
  by_cases h : b.LastName = a.LastName
  · simp only [h, if_true, Bool.eq_false_iff, ne_eq, strLt_iff, not_lt, lt_irrefl, false_or,
      true_and]
  · have h' : ¬ a.LastName = b.LastName := fun e => h e.symm
    simp only [h, h', if_false, Bool.eq_false_iff, ne_eq, strLt_iff, not_lt, false_and, or_false]
    exact ⟨fun hle => lt_of_le_of_ne hle h', le_of_lt⟩

theorem nameLE_iff_lex (a b : Contact) :
    nameLE a b ↔ toLex (a.LastName, a.FirstName) ≤ toLex (b.LastName, b.FirstName) := by
  rw [Prod.Lex.le_iff]; rfl

theorem nameLE_total (a b : Contact) : nameLE a b ∨ nameLE b a := by
  simp only [nameLE_iff_lex]; exact le_total _ _

theorem nameLE_trans {a b c : Contact} (h1 : nameLE a b) (h2 : nameLE b c) : nameLE a c := by
  simp only [nameLE_iff_lex] at *; exact le_trans h1 h2

theorem sortSlice_perm {α : Type} (lt : α → α → Bool) (l : List α) : (sortSlice lt l).Perm l :=
  List.perm_insertionSort _ l

theorem sortSlice_less_sorted (l : List Contact) : (sortSlice less l).Sorted nameLE := by
  have key : ∀ a b : Contact, (less b a = false) ↔ nameLE a b := less_eq_false_iff
  haveI : IsTotal Contact (fun a b => less b a = false) :=
    ⟨fun a b => by simpa only [key] using nameLE_total a b⟩
  haveI : IsTrans Contact (fun a b => less b a = false) :=
    ⟨fun a b c h1 h2 => by simp only [key] at *; exact nameLE_trans h1 h2⟩
  have := List.sorted_insertionSort (fun a b => less b a = false) l
  exact List.Pairwise.imp (fun h => (key _ _).1 h) this


/-! ### The store, one call at a time -/

theorem Get_eq_ok_iff (m : Memory) (id : String) (c : Contact) :
    m.Get id = .ok c ↔ m.data.lookup id = some c := by
  unfold Memory.Get
  cases h : m.data.lookup id <;> simp

theorem Get_eq_notFound_iff (m : Memory) (id : String) :
    m.Get id = .error .ErrNotFound ↔ m.data.lookup id = none := by
  unfold Memory.Get
  cases h : m.data.lookup id <;> simp

/-- What `Create` does when it does not reject the email. -/
theorem Create_of_ok (lr : Char → Char) (m : Memory) (now : Time) (c r : Contact)
    (h : (m.Create lr now c).1 = .ok r) :
    r = { c with ID := Itoa (wrapInt (m.counter + 1)), CreatedAt := now, UpdatedAt := now } ∧
    (m.Create lr now c).2 =
      { data := m.data.insert r.ID r, emails := m.emails.insert (ToLower lr c.Email) r.ID,
        counter := wrapInt (m.counter + 1) } := by
  unfold Memory.Create at h ⊢
  simp only [Memory.nextID] at h ⊢
  split at h
  · simp at h
  · rename_i hd
    simp only [Except.ok.injEq] at h
    subst h
    simp [hd]

/-- C1 (the code departs from it). After `Create` of a contact with the email
`ann@x.io`, a second `Create` whose argument carries the ID "1" of that contact and
the email `ANN@X.IO` is accepted, and the store then holds two live contacts with
different IDs whose emails are equal after lowercasing. -/
theorem create_with_owner_id_breaks_email_uniqueness :
    ¬ EmailsUnique asciiLower (NewMemory.run asciiLower
        [.create 1 (contactLit "" "Ann" "Lee" "ann@x.io" ""),
         .create 2 (contactLit "1" "Bea" "Ray" "ANN@X.IO" "")]) := by
  decide

/-- C2 (the code departs from it). In the store holding the one contact "1" with the
email `ann@x.io`, `Create` of a contact with the email `ANN@X.IO` and the ID "1"
does not return `ErrDuplicateEmail`: it returns a new contact "2" and changes the
contact map, the email index and the counter. -/
theorem create_with_owner_id_not_rejected :
    (NewMemory.run asciiLower [.create 1 (contactLit "" "Ann" "Lee" "ann@x.io" "")]).Get "1"
      = .ok ⟨"1", "Ann", "Lee", "ann@x.io", "", 1, 1⟩ ∧
    ((NewMemory.run asciiLower [.create 1 (contactLit "" "Ann" "Lee" "ann@x.io" "")]).Create
        asciiLower 2 (contactLit "1" "Bea" "Ray" "ANN@X.IO" "")).1
      = .ok ⟨"2", "Bea", "Ray", "ANN@X.IO", "", 2, 2⟩ ∧
    ((NewMemory.run asciiLower [.create 1 (contactLit "" "Ann" "Lee" "ann@x.io" "")]).Create
        asciiLower 2 (contactLit "1" "Bea" "Ray" "ANN@X.IO" "")).2.Count = 2 ∧
    ((NewMemory.run asciiLower [.create 1 (contactLit "" "Ann" "Lee" "ann@x.io" "")]).Create
        asciiLower 2 (contactLit "1" "Bea" "Ray" "ANN@X.IO" "")).2.emails.lookup "ann@x.io"
      = some "2" ∧
    ((NewMemory.run asciiLower [.create 1 (contactLit "" "Ann" "Lee" "ann@x.io" "")]).Create
        asciiLower 2 (contactLit "1" "Bea" "Ray" "ANN@X.IO" "")).2.counter = 2 := by
  decide

/-- C3. When `Create` succeeds with the result `r`, then `r` has the names, the
email and the phone of the argument, its two timestamps are equal, its ID is not
empty, and `Get` of that ID in the state `Create` leaves returns `r`. -/
theorem create_then_get (lr : Char → Char) (s : Memory) (now : Time) (c r : Contact)
    (h : (s.Create lr now c).1 = .ok r) :
    r.FirstName = c.FirstName ∧ r.LastName = c.LastName ∧ r.Email = c.Email ∧
    r.Phone = c.Phone ∧ r.CreatedAt = r.UpdatedAt ∧ r.ID ≠ "" ∧
    (s.Create lr now c).2.Get r.ID = .ok r := by
  obtain ⟨hr, hs⟩ := Create_of_ok lr s now c r h
  refine ⟨by rw [hr], by rw [hr], by rw [hr], by rw [hr], by rw [hr], ?_, ?_⟩
  · rw [hr]; exact Itoa_ne_empty _
  · rw [hs, Get_eq_ok_iff]
    exact AList.lookup_insert _

theorem create_then_get_witness :
    (newTestStore.Create asciiLower 4 (contactLit "" "Jane" "Doe" "jane@example.com" "")).1
      = .ok ⟨"4", "Jane", "Doe", "jane@example.com", "", 4, 4⟩ ∧
    (newTestStore.Create asciiLower 4 (contactLit "" "Jane" "Doe" "jane@example.com" "")).2.Get "4"
      = .ok ⟨"4", "Jane", "Doe", "jane@example.com", "", 4, 4⟩ :=
  ⟨by decide,
   (create_then_get asciiLower newTestStore 4 (contactLit "" "Jane" "Doe" "jane@example.com" "")
      ⟨"4", "Jane", "Doe", "jane@example.com", "", 4, 4⟩ (by decide)).2.2.2.2.2.2⟩


/-! ### ID assignment -/

theorem Create_of_error (lr : Char → Char) (m : Memory) (now : Time) (c : Contact)
    (e : StoreError) (h : (m.Create lr now c).1 = .error e) :
    e = .ErrDuplicateEmail ∧ (m.Create lr now c).2 = m := by
  unfold Memory.Create at h ⊢
  simp only [Memory.nextID] at h ⊢
  split at h
  · rename_i hd
    simp only [Except.error.injEq] at h
    simp [hd, h.symm]
  · simp at h

theorem Update_counter (lr : Char → Char) (m : Memory) (now : Time) (c : Contact) :
    (m.Update lr now c).2.counter = m.counter := by
  unfold Memory.Update
  split
  · rfl
  · dsimp only
    split <;> rfl

theorem Delete_counter (lr : Char → Char) (m : Memory) (id : String) :
    (m.Delete lr id).2.counter = m.counter := by
  unfold Memory.Delete
  split <;> rfl

theorem run_cons (lr : Char → Char) (m : Memory) (op : Op) (ops : List Op) :
    m.run lr (op :: ops) = (m.step lr op).run lr ops := rfl

theorem wrapInt_succ_of_count (x : Int) (n : Nat) (h : x = wrapInt n) :
    wrapInt (x + 1) = wrapInt ((n + 1 : Nat) : Int) := by
  rw [h, wrapInt_add_wrapInt]; push_cast; rfl

/-- From a state whose counter has been incremented `n` times: the successful
`Create` calls of a run return what `%d` prints for the successive values of the
counter, and the counter is incremented once for each of them. -/
theorem createdIDs_from (lr : Char → Char) (ops : List Op) :
    ∀ (m : Memory) (n : Nat), m.counter = wrapInt n →
      createdIDs lr m ops =
        (List.range (createdIDs lr m ops).length).map
          (fun k => Itoa (wrapInt ((n + k + 1 : Nat) : Int))) ∧
      (m.run lr ops).counter = wrapInt ((n + (createdIDs lr m ops).length : Nat) : Int) := by
  induction ops with
  | nil => intro m n hn; simpa [createdIDs, Memory.run] using hn
  | cons op ops ih =>
    intro m n hn
    cases op with
    | create now c =>
      rw [run_cons]
      simp only [createdIDs, Memory.step]
      cases hres : (m.Create lr now c).1 with
      | error e =>
        obtain ⟨_, hs⟩ := Create_of_error lr m now c e hres
        simp only [hs]
        exact ih m n hn
      | ok r =>
        obtain ⟨hr, hs⟩ := Create_of_ok lr m now c r hres
        have hc : (m.Create lr now c).2.counter = wrapInt ((n + 1 : Nat) : Int) := by
          rw [hs]; exact wrapInt_succ_of_count _ n hn
        obtain ⟨h1, h2⟩ := ih (m.Create lr now c).2 (n + 1) hc
        have hid : r.ID = Itoa (wrapInt ((n + 0 + 1 : Nat) : Int)) := by
          rw [hr]
          show Itoa (wrapInt (m.counter + 1)) = _
          rw [wrapInt_succ_of_count _ n hn]
        refine ⟨?_, ?_⟩
        · dsimp only
          rw [List.length_cons, List.range_succ_eq_map, List.map_cons, List.map_map, hid]
          refine congrArg _ ?_
          conv_lhs => rw [h1]
          apply List.map_congr_left
          intro k _
          have hk : n + 1 + k + 1 = n + (k + 1) + 1 := by omega
          rw [Function.comp_apply, Nat.succ_eq_add_one, hk]
        · dsimp only
          rw [h2, List.length_cons]
          have hk : n + 1 + (createdIDs lr (m.Create lr now c).2 ops).length =
              n + ((createdIDs lr (m.Create lr now c).2 ops).length + 1) := by omega
          rw [hk]
    | update now c =>
      rw [run_cons]
      simp only [createdIDs, Memory.step]
      exact ih (m.Update lr now c).2 n (by rw [Update_counter]; exact hn)
    | delete id =>
      rw [run_cons]
      simp only [createdIDs, Memory.step]
      exact ih (m.Delete lr id).2 n (by rw [Delete_counter]; exact hn)

/-- C4, amended. In every run of `Create`, `Update` and `Delete` calls on a new
store, the `k`-th successful `Create` returns what `%d` prints for the 64-bit `int`
value of `k`, which is the decimal string of `k` for every `k` below `2^63`; the
counter is the 64-bit value of the number of successful `Create` calls, so no other
call advances it; and the IDs returned are pairwise distinct, whatever was deleted
in between, as long as at most `2^64` calls of `Create` succeeded. -/
theorem created_ids_follow_counter (lr : Char → Char) (ops : List Op) :
    createdIDs lr NewMemory ops =
      (List.range (createdIDs lr NewMemory ops).length).map
        (fun k => Itoa (wrapInt ((k + 1 : Nat) : Int))) ∧
    (NewMemory.run lr ops).counter = wrapInt ((createdIDs lr NewMemory ops).length : Int) ∧
    (∀ k, k < (createdIDs lr NewMemory ops).length → k + 1 < 2 ^ 63 →
      (createdIDs lr NewMemory ops)[k]? = some (Nat.repr (k + 1))) ∧
    ((createdIDs lr NewMemory ops).length < 2 ^ 63 →
      (NewMemory.run lr ops).counter = ((createdIDs lr NewMemory ops).length : Int)) ∧
    ((createdIDs lr NewMemory ops).length ≤ 2 ^ 64 → (createdIDs lr NewMemory ops).Nodup) := by
  obtain ⟨h1, h2⟩ := createdIDs_from lr ops NewMemory 0 (by decide)
  have h1' : createdIDs lr NewMemory ops =
      (List.range (createdIDs lr NewMemory ops).length).map
        (fun k => Itoa (wrapInt ((k + 1 : Nat) : Int))) := by
    conv_lhs => rw [h1]
    apply List.map_congr_left
    intro k _
    simp
  have h2' : (NewMemory.run lr ops).counter =
      wrapInt ((createdIDs lr NewMemory ops).length : Int) := by
    rw [h2]; simp
  refine ⟨h1', h2', ?_, ?_, ?_⟩
  · intro k hk hb
    rw [h1']
    simp only [List.getElem?_map, List.length_map, List.length_range]
    rw [List.getElem?_range (by simpa using hk)]
    simp only [Option.map_some']
    have hw : wrapInt ((k + 1 : Nat) : Int) = ((k + 1 : Nat) : Int) :=
      wrapInt_of_inRange _ (by omega) (by
        have : (2 : Nat) ^ 63 = 9223372036854775808 := by norm_num
        omega)
    rw [hw, Itoa_natCast]
  · intro hb
    rw [h2']
    exact wrapInt_of_inRange _ (by omega) (by
      have : (2 : Nat) ^ 63 = 9223372036854775808 := by norm_num
      omega)
  · intro hb
    rw [h1']
    refine List.Nodup.map_on ?_ (List.nodup_range _)
    intro a ha b hb' hab
    rw [List.mem_range] at ha hb'
    have h264 : (2 : Nat) ^ 64 = 18446744073709551616 := by norm_num
    have hw := Itoa_injective hab
    rcases Nat.le_total a b with hle | hle
    · have := wrapInt_natCast_inj (a + 1) (b + 1) hw (by omega) (by omega)
      omega
    · have := wrapInt_natCast_inj (b + 1) (a + 1) hw.symm (by omega) (by omega)
      omega

/-! ### Listing -/

theorem ToLower_eq_empty_iff (lr : Char → Char) (s : String) : ToLower lr s = "" ↔ s = "" := by
  constructor
  · intro h
    have h1 : (ToLower lr s).data = [] := by rw [h]
    have h2 : s.data = [] := by simpa [ToLower] using h1
    exact String.ext h2
  · intro h; subst h; rfl

theorem mem_contacts_iff (m : Memory) (c : Contact) :
    c ∈ m.contacts ↔ ∃ id, m.Get id = .ok c := by
  simp only [Memory.contacts, List.mem_map, Get_eq_ok_iff]
  constructor
  · rintro ⟨⟨k, v⟩, hmem, rfl⟩
    exact ⟨k, AList.mem_lookup_iff.2 hmem⟩
  · rintro ⟨id, h⟩
    exact ⟨⟨id, c⟩, AList.mem_lookup_iff.1 h, rfl⟩

/-- The value `List` returns, with the query it searches for. -/
theorem List_eq (lr : Char → Char) (m : Memory) (search : String) :
    m.List' lr search = .ok (sortSlice less (m.contacts.filter (fun c =>
      ToLower lr (TrimSpace search) == "" ||
        Memory.matches lr c (ToLower lr (TrimSpace search))))) := rfl

/-- C5. `List` never fails, and in the sequence it returns every contact is
followed by one with a greater last name, or with the same last name and a first
name that is not smaller. -/
theorem list_sorted_by_name (lr : Char → Char) (s : Memory) (search : String) :
    ∃ l, s.List' lr search = .ok l ∧
      l.Chain' (fun a b => a.LastName < b.LastName ∨
        (a.LastName = b.LastName ∧ a.FirstName ≤ b.FirstName)) := by
  refine ⟨_, List_eq lr s search, ?_⟩
  exact List.Pairwise.chain' (sortSlice_less_sorted _)

/-- C6 as stated fails. On the seeded store the query of one blank is not empty,
`List` returns Alice Johnson for it, and no field of hers contains a blank. -/
theorem list_untrimmed_query_not_exact :
    ¬ ∀ (s : Memory) (q : String), q ≠ "" → ∀ l, s.List' asciiLower q = .ok l →
        ∀ c, c ∈ l ↔ (c ∈ s.contacts ∧ ∃ f ∈ [c.FirstName, c.LastName, c.Email, c.Phone],
          (ToLower asciiLower q).data <:+: (ToLower asciiLower f).data) := by
  intro h
  have h1 := h (NewMemory.Seed asciiLower (fun i => i + 1)) " " (by decide) _ rfl
    ⟨"1", "Alice", "Johnson", "alice@example.com", "555-0101", 1, 1⟩
  have h2 := (h1.1 (by decide)).2
  revert h2
  decide

/-- C6, amended. `List` searches for the query without its leading and trailing
white space: when that is not empty, the contacts `List` returns are exactly the
live contacts one of whose four fields contains it, both lowercased. -/
theorem list_returns_exactly_matches (lr : Char → Char) (s : Memory) (q : String)
    (hq : TrimSpace q ≠ "") :
    ∃ l, s.List' lr q = .ok l ∧
      ∀ c, c ∈ l ↔ (c ∈ s.contacts ∧ ∃ f ∈ [c.FirstName, c.LastName, c.Email, c.Phone],
        (ToLower lr (TrimSpace q)).data <:+: (ToLower lr f).data) := by
  refine ⟨_, List_eq lr s q, ?_⟩
  intro c
  have hne : (ToLower lr (TrimSpace q) == "") = false := by
    simpa using (fun h => hq ((ToLower_eq_empty_iff lr _).1 h))
  rw [(sortSlice_perm less _).mem_iff, List.mem_filter, hne, Bool.false_or, matches_iff]

theorem list_returns_exactly_matches_witness :
    TrimSpace "alice" ≠ "" ∧
    (NewMemory.Seed asciiLower (fun i => i + 1)).List' asciiLower "alice" =
      .ok [⟨"1", "Alice", "Johnson", "alice@example.com", "555-0101", 1, 1⟩] ∧
    ∃ l, (NewMemory.Seed asciiLower (fun i => i + 1)).List' asciiLower "alice" = .ok l ∧
      ∀ c, c ∈ l ↔ (c ∈ (NewMemory.Seed asciiLower (fun i => i + 1)).contacts ∧
        ∃ f ∈ [c.FirstName, c.LastName, c.Email, c.Phone],
          (ToLower asciiLower (TrimSpace "alice")).data <:+: (ToLower asciiLower f).data) :=
  ⟨by decide, by decide,
   list_returns_exactly_matches asciiLower (NewMemory.Seed asciiLower (fun i => i + 1)) "alice"
     (by decide)⟩

/-- C7. `List` of the empty query returns a permutation of the live contacts, so
every one of them exactly once and nothing else, and as many as `Count` says. -/
theorem list_empty_query_all (lr : Char → Char) (s : Memory) :
    ∃ l, s.List' lr "" = .ok l ∧ l.Perm s.contacts ∧ l.length = s.Count ∧
      ∀ c, c ∈ l ↔ ∃ id, s.Get id = .ok c := by
  have hq : ToLower lr (TrimSpace "") = "" := rfl
  have hl : s.List' lr "" = .ok (sortSlice less s.contacts) := by
    rw [List_eq, hq]; simp
  have hp : (sortSlice less s.contacts).Perm s.contacts := sortSlice_perm less _
  refine ⟨_, hl, hp, ?_, ?_⟩
  · rw [hp.length_eq]; simp [Memory.contacts, Memory.Count]
  · intro c; rw [hp.mem_iff, mem_contacts_iff]

/-! ### Delete and Update -/

theorem length_erase_of_lookup {β : Type} (m : AList (fun _ : String => β)) (k : String) (v : β)
    (h : m.lookup k = some v) : (m.erase k).entries.length + 1 = m.entries.length := by
  have hk : k ∈ m.entries.keys := by
    have : k ∈ m := AList.lookup_isSome.1 (by rw [h]; rfl)
    exact this
  obtain ⟨b, l₁, l₂, _, h1, h2⟩ := List.exists_of_kerase hk
  have he : (m.erase k).entries = List.kerase k m.entries := rfl
  rw [he, h2, h1]
  simp only [List.length_append, List.length_cons]
  omega

theorem length_insert_of_lookup {β : Type} (m : AList (fun _ : String => β)) (k : String)
    (v w : β) (h : m.lookup k = some v) : (m.insert k w).entries.length = m.entries.length := by
  have := length_erase_of_lookup m k v h
  have he : (m.erase k).entries = List.kerase k m.entries := rfl
  rw [AList.insert_entries, List.length_cons, ← he]
  exact this

/-- What `Delete` does when it succeeds. -/
theorem Delete_of_ok (lr : Char → Char) (m : Memory) (id : String)
    (h : (m.Delete lr id).1 = .ok ()) :
    ∃ old, m.data.lookup id = some old ∧
      (m.Delete lr id).2 =
        { m with emails := m.emails.erase (ToLower lr old.Email), data := m.data.erase id } := by
  unfold Memory.Delete at h ⊢
  cases hl : m.data.lookup id with
  | none => rw [hl] at h; simp at h
  | some old => exact ⟨old, rfl, by simp⟩

/-- What `Update` does when it succeeds. -/
theorem Update_of_ok (lr : Char → Char) (m : Memory) (now : Time) (c r : Contact)
    (h : (m.Update lr now c).1 = .ok r) :
    ∃ old, m.data.lookup c.ID = some old ∧
      r = { c with CreatedAt := old.CreatedAt, UpdatedAt := now } ∧
      (m.Update lr now c).2 =
        { m with data := m.data.insert c.ID r,
                 emails := (m.emails.erase (ToLower lr old.Email)).insert
                   (ToLower lr c.Email) c.ID } := by
  unfold Memory.Update at h ⊢
  cases hl : m.data.lookup c.ID with
  | none => rw [hl] at h; simp at h
  | some old =>
    rw [hl] at h
    dsimp only at h ⊢
    split at h
    · simp at h
    · rename_i hd
      simp only [Except.ok.injEq] at h
      subst h
      exact ⟨old, rfl, rfl, by simp [hd]⟩

/-- `Create` succeeds when the email index has no entry for the lowercased email. -/
theorem Create_ok_of_not_indexed (lr : Char → Char) (m : Memory) (now : Time) (c : Contact)
    (h : m.emails.lookup (ToLower lr c.Email) = none) :
    ∃ r, (m.Create lr now c).1 = .ok r := by
  unfold Memory.Create
  simp [h, Memory.nextID]

/-- C8. When `Delete` of an ID succeeds, `Get` of that ID then returns
`ErrNotFound`, `Count` is one less than before, `Get` of every other ID returns
what it returned before, and a `Create` with the email of the deleted contact, in
any case variation and with any ID (the empty one included), succeeds. -/
theorem delete_removes_contact (lr : Char → Char) (s : Memory) (id : String)
    (h : (s.Delete lr id).1 = .ok ()) :
    (s.Delete lr id).2.Get id = .error .ErrNotFound ∧
    (s.Delete lr id).2.Count + 1 = s.Count ∧
    (∀ id', id' ≠ id → (s.Delete lr id).2.Get id' = s.Get id') ∧
    ∃ old, s.Get id = .ok old ∧
      ∀ (now : Time) (c : Contact), ToLower lr c.Email = ToLower lr old.Email →
        ∃ r, ((s.Delete lr id).2.Create lr now c).1 = .ok r := by
  obtain ⟨old, hl, hs⟩ := Delete_of_ok lr s id h
  rw [hs]
  refine ⟨?_, ?_, ?_, old, ?_, ?_⟩
  · rw [Get_eq_notFound_iff]; exact AList.lookup_erase id s.data
  · exact length_erase_of_lookup s.data id old hl
  · intro id' hne
    unfold Memory.Get
    simp only [AList.lookup_erase_ne hne]
  · rw [Get_eq_ok_iff]; exact hl
  · intro now c hc
    apply Create_ok_of_not_indexed
    show AList.lookup (ToLower lr c.Email) (AList.erase (ToLower lr old.Email) s.emails) = none
    rw [hc]
    exact AList.lookup_erase (ToLower lr old.Email) s.emails

theorem delete_removes_contact_witness :
    (newTestStore.Delete asciiLower "1").1 = .ok () ∧
    (newTestStore.Delete asciiLower "1").2.Get "1" = .error .ErrNotFound ∧
    (newTestStore.Delete asciiLower "1").2.Count + 1 = newTestStore.Count ∧
    (newTestStore.Delete asciiLower "1").2.Count = 2 :=
  ⟨by decide,
   (delete_removes_contact asciiLower newTestStore "1" (by decide)).1,
   (delete_removes_contact asciiLower newTestStore "1" (by decide)).2.1,
   by decide⟩

/-- C9 (the code departs from it). After `Create` of a contact with the email
`ann@x.io` and a `Create` with the ID "1" and the email `ANN@X.IO`, the contacts "1"
and "2" are both live; `Update` of the contact "2" to the email `ann@x.io` of the
live contact "1" then succeeds instead of returning `ErrDuplicateEmail`. -/
theorem update_accepts_email_of_other_contact :
    (NewMemory.run asciiLower
        [.create 1 (contactLit "" "Ann" "Lee" "ann@x.io" ""),
         .create 2 (contactLit "1" "Bea" "Ray" "ANN@X.IO" "")]).Get "1"
      = .ok ⟨"1", "Ann", "Lee", "ann@x.io", "", 1, 1⟩ ∧
    (NewMemory.run asciiLower
        [.create 1 (contactLit "" "Ann" "Lee" "ann@x.io" ""),
         .create 2 (contactLit "1" "Bea" "Ray" "ANN@X.IO" "")]).Get "2"
      = .ok ⟨"2", "Bea", "Ray", "ANN@X.IO", "", 2, 2⟩ ∧
    ((NewMemory.run asciiLower
        [.create 1 (contactLit "" "Ann" "Lee" "ann@x.io" ""),
         .create 2 (contactLit "1" "Bea" "Ray" "ANN@X.IO" "")]).Update asciiLower 3
        (contactLit "2" "Bea" "Ray" "ann@x.io" "")).1
      = .ok ⟨"2", "Bea", "Ray", "ann@x.io", "", 2, 3⟩ := by
  decide

/-! ### Reachable states -/

theorem keysAreIDs_step (lr : Char → Char) (m : Memory) (op : Op) (h : KeysAreIDs m) :
    KeysAreIDs (m.step lr op) := by
  cases op with
  | create now c =>
    simp only [Memory.step]
    cases hres : (m.Create lr now c).1 with
    | error e => rw [(Create_of_error lr m now c e hres).2]; exact h
    | ok r =>
      rw [(Create_of_ok lr m now c r hres).2]
      intro k v hk
      by_cases hkr : k = r.ID
      · subst hkr
        simp only [AList.lookup_insert, Option.some.injEq] at hk
        rw [← hk]
      · simp only [AList.lookup_insert_ne hkr] at hk
        exact h k v hk
  | update now c =>
    simp only [Memory.step]
    cases hres : (m.Update lr now c).1 with
    | error e =>
      have : (m.Update lr now c).2 = m := by
        unfold Memory.Update at hres ⊢
        split
        · rfl
        · rename_i old hl
          rw [hl] at hres
          dsimp only at hres ⊢
          split
          · rfl
          · rename_i hd
            simp [hd] at hres
      rw [this]; exact h
    | ok r =>
      obtain ⟨old, _, hr, hs⟩ := Update_of_ok lr m now c r hres
      rw [hs]
      intro k v hk
      by_cases hkr : k = c.ID
      · subst hkr
        simp only [AList.lookup_insert, Option.some.injEq] at hk
        rw [← hk, hr]
      · simp only [AList.lookup_insert_ne hkr] at hk
        exact h k v hk
  | delete id =>
    simp only [Memory.step]
    unfold Memory.Delete
    split
    · exact h
    · intro k v hk
      by_cases hkr : k = id
      · subst hkr
        simp [AList.lookup_erase] at hk
      · simp only [AList.lookup_erase_ne hkr] at hk
        exact h k v hk

theorem keysAreIDs_run (lr : Char → Char) (ops : List Op) :
    ∀ m : Memory, KeysAreIDs m → KeysAreIDs (m.run lr ops) := by
  induction ops with
  | nil => intro m h; exact h
  | cons op ops ih => intro m h; exact ih _ (keysAreIDs_step lr m op h)

theorem Reachable.keysAreIDs {lr : Char → Char} {s : Memory} (h : Reachable lr s) :
    KeysAreIDs s := by
  obtain ⟨ops, rfl⟩ := h
  apply keysAreIDs_run
  intro k c hk
  simp [NewMemory] at hk


/-- C10. When `Update` succeeds in a state the store can be in, the record then
stored under the ID of the argument has the ID and the `CreatedAt` of the record
stored there before and the names, the email and the phone of the argument;
`Count` and the record under every other ID are as before; and when the previous
email differs from the new one after lowercasing, a `Create` with the previous
email, in any case variation and with any ID, succeeds. -/
theorem update_keeps_identity (lr : Char → Char) (s : Memory) (now : Time) (c r : Contact)
    (hs : Reachable lr s) (h : (s.Update lr now c).1 = .ok r) :
    ∃ old, s.Get c.ID = .ok old ∧
      (s.Update lr now c).2.Get c.ID = .ok r ∧
      r.ID = old.ID ∧ r.CreatedAt = old.CreatedAt ∧
      r.FirstName = c.FirstName ∧ r.LastName = c.LastName ∧ r.Email = c.Email ∧
      r.Phone = c.Phone ∧
      (s.Update lr now c).2.Count = s.Count ∧
      (∀ id', id' ≠ c.ID → (s.Update lr now c).2.Get id' = s.Get id') ∧
      (ToLower lr old.Email ≠ ToLower lr c.Email →
        ∀ (now' : Time) (c' : Contact), ToLower lr c'.Email = ToLower lr old.Email →
          ∃ r', ((s.Update lr now c).2.Create lr now' c').1 = .ok r') := by
  obtain ⟨old, hl, hr, hst⟩ := Update_of_ok lr s now c r h
  have hid : old.ID = c.ID := hs.keysAreIDs c.ID old hl
  rw [hst]
  refine ⟨old, (Get_eq_ok_iff _ _ _).2 hl, ?_, ?_, by rw [hr], by rw [hr], by rw [hr], by rw [hr],
    by rw [hr], ?_, ?_, ?_⟩
  · rw [Get_eq_ok_iff]; exact AList.lookup_insert _
  · rw [hr, hid]
  · exact length_insert_of_lookup s.data c.ID old r hl
  · intro id' hne
    unfold Memory.Get
    simp only [AList.lookup_insert_ne hne]
  · intro hne now' c' hc'
    apply Create_ok_of_not_indexed
    show AList.lookup (ToLower lr c'.Email)
      (AList.insert (ToLower lr c.Email) c.ID (AList.erase (ToLower lr old.Email) s.emails)) = none
    rw [hc', AList.lookup_insert_ne hne]
    exact AList.lookup_erase (ToLower lr old.Email) s.emails

theorem update_keeps_identity_witness :
    Reachable asciiLower newTestStore ∧
    (newTestStore.Update asciiLower 9 (contactLit "1" "Alicia" "Johnson" "alicia@example.com" "")).1
      = .ok ⟨"1", "Alicia", "Johnson", "alicia@example.com", "", 1, 9⟩ ∧
    ∃ old, newTestStore.Get "1" = .ok old ∧
      (newTestStore.Update asciiLower 9
          (contactLit "1" "Alicia" "Johnson" "alicia@example.com" "")).2.Get "1"
        = .ok ⟨"1", "Alicia", "Johnson", "alicia@example.com", "", 1, 9⟩ ∧
      (1 : Time) = old.CreatedAt :=
  ⟨⟨_, rfl⟩, by decide,
   (update_keeps_identity asciiLower newTestStore 9
      (contactLit "1" "Alicia" "Johnson" "alicia@example.com" "")
      ⟨"1", "Alicia", "Johnson", "alicia@example.com", "", 1, 9⟩ ⟨_, rfl⟩ (by decide)).imp
     (fun _ hx => ⟨hx.1, hx.2.1, hx.2.2.2.1⟩)⟩

/-! ### The email index -/

theorem Update_of_error (lr : Char → Char) (m : Memory) (now : Time) (c : Contact)
    (e : StoreError) (h : (m.Update lr now c).1 = .error e) : (m.Update lr now c).2 = m := by
  unfold Memory.Update at h ⊢
  split
  · rfl
  · rename_i old hl
    rw [hl] at h
    dsimp only at h ⊢
    split
    · rfl
    · rename_i hd
      simp [hd] at h

theorem Update_notFound_iff (lr : Char → Char) (m : Memory) (now : Time) (c : Contact) :
    (m.Update lr now c).1 = .error .ErrNotFound ↔ m.data.lookup c.ID = none := by
  unfold Memory.Update
  cases hl : m.data.lookup c.ID with
  | none => simp
  | some old =>
    dsimp only
    split <;> simp

/-- When the contact exists, `Update` rejects the email exactly when the index
maps it to another ID. -/
theorem Update_duplicate_iff (lr : Char → Char) (m : Memory) (now : Time) (c old : Contact)
    (hl : m.data.lookup c.ID = some old) :
    (m.Update lr now c).1 = .error .ErrDuplicateEmail ↔
      ∃ id, m.emails.lookup (ToLower lr c.Email) = some id ∧ id ≠ c.ID := by
  unfold Memory.Update
  rw [hl]
  dsimp only
  cases he : m.emails.lookup (ToLower lr c.Email) with
  | none => simp
  | some id =>
    by_cases hid : id = c.ID
    · simp [hid]
    · simp [hid]

/-- `Create` rejects the email exactly when the index maps it to an ID other than
the one its argument carries. -/
theorem Create_duplicate_iff (lr : Char → Char) (m : Memory) (now : Time) (c : Contact) :
    (m.Create lr now c).1 = .error .ErrDuplicateEmail ↔
      ∃ id, m.emails.lookup (ToLower lr c.Email) = some id ∧ id ≠ c.ID := by
  unfold Memory.Create
  simp only [Memory.nextID]
  cases he : m.emails.lookup (ToLower lr c.Email) with
  | none => simp
  | some id =>
    by_cases hid : id = c.ID
    · simp [hid]
    · simp [hid]

theorem storeInv_new (lr : Char → Char) : StoreInv lr NewMemory := by
  refine ⟨?_, ?_, ?_, ?_⟩
  · intro k c h; simp [NewMemory] at h
  · intro k c h; simp [NewMemory] at h
  · intro k c h; simp [NewMemory] at h
  · intro e id h; simp [NewMemory] at h

/-- `Create` of a contact without an ID keeps the invariant when the ID it issues
is not in use. -/
theorem storeInv_create (lr : Char → Char) (m : Memory) (now : Time) (c : Contact)
    (hinv : StoreInv lr m) (hc : c.ID = "")
    (hfresh : m.data.lookup (Itoa (wrapInt (m.counter + 1))) = none) :
    StoreInv lr (m.Create lr now c).2 := by
  obtain ⟨hk, hi, hx1, hx2⟩ := hinv
  cases hres : (m.Create lr now c).1 with
  | error e => rw [(Create_of_error lr m now c e hres).2]; exact ⟨hk, hi, hx1, hx2⟩
  | ok r =>
    obtain ⟨hr, hs⟩ := Create_of_ok lr m now c r hres
    have hrid : r.ID = Itoa (wrapInt (m.counter + 1)) := by rw [hr]
    have hre : r.Email = c.Email := by rw [hr]
    -- the email was not indexed: an indexed email belongs to a live, non-empty ID
    have hnone : m.emails.lookup (ToLower lr c.Email) = none := by
      cases he : m.emails.lookup (ToLower lr c.Email) with
      | none => rfl
      | some id =>
        exfalso
        have hdup : (m.Create lr now c).1 = .error .ErrDuplicateEmail := by
          rw [Create_duplicate_iff]
          refine ⟨id, he, ?_⟩
          obtain ⟨c', hc', _⟩ := hx2 _ _ he
          rw [hc]
          exact hi _ _ hc'
        rw [hdup] at hres
        cases hres
    have hfresh' : m.data.lookup r.ID = none := by rw [hrid]; exact hfresh
    rw [hs]
    refine ⟨?_, ?_, ?_, ?_⟩
    · intro k v hkv
      by_cases hkr : k = r.ID
      · subst hkr
        simp only [AList.lookup_insert, Option.some.injEq] at hkv
        rw [← hkv]
      · simp only [AList.lookup_insert_ne hkr] at hkv
        exact hk k v hkv
    · intro k v hkv
      by_cases hkr : k = r.ID
      · rw [hkr, hrid]; exact Itoa_ne_empty _
      · simp only [AList.lookup_insert_ne hkr] at hkv
        exact hi k v hkv
    · intro k v hkv
      by_cases hkr : k = r.ID
      · subst hkr
        simp only [AList.lookup_insert, Option.some.injEq] at hkv
        show AList.lookup (ToLower lr v.Email) (AList.insert (ToLower lr c.Email) r.ID m.emails)
          = some r.ID
        rw [← hkv, hre]
        exact AList.lookup_insert _
      · simp only [AList.lookup_insert_ne hkr] at hkv
        have hold := hx1 k v hkv
        have hne : ToLower lr v.Email ≠ ToLower lr c.Email := by
          intro heq; rw [heq, hnone] at hold; cases hold
        show AList.lookup (ToLower lr v.Email) (AList.insert (ToLower lr c.Email) r.ID m.emails)
          = some k
        rw [AList.lookup_insert_ne hne]
        exact hold
    · intro e id he
      have he' : AList.lookup e (AList.insert (ToLower lr c.Email) r.ID m.emails) = some id := he
      by_cases hee : e = ToLower lr c.Email
      · subst hee
        simp only [AList.lookup_insert, Option.some.injEq] at he'
        subst he'
        exact ⟨r, AList.lookup_insert _, by rw [hre]⟩
      · rw [AList.lookup_insert_ne hee] at he'
        obtain ⟨c', hc', hce⟩ := hx2 e id he'
        have hne : id ≠ r.ID := by
          intro heq; rw [heq, hfresh'] at hc'; cases hc'
        refine ⟨c', ?_, hce⟩
        show AList.lookup id (AList.insert r.ID r m.data) = some c'
        rw [AList.lookup_insert_ne hne]
        exact hc'

theorem storeInv_update (lr : Char → Char) (m : Memory) (now : Time) (c : Contact)
    (hinv : StoreInv lr m) : StoreInv lr (m.Update lr now c).2 := by
  obtain ⟨hk, hi, hx1, hx2⟩ := hinv
  cases hres : (m.Update lr now c).1 with
  | error e => rw [Update_of_error lr m now c e hres]; exact ⟨hk, hi, hx1, hx2⟩
  | ok r =>
    obtain ⟨old, hl, hr, hs⟩ := Update_of_ok lr m now c r hres
    have hre : r.Email = c.Email := by rw [hr]
    have hold : m.emails.lookup (ToLower lr old.Email) = some c.ID := hx1 _ _ hl
    -- the new email is not indexed for another contact
    have hnodup : ∀ id, m.emails.lookup (ToLower lr c.Email) = some id → id = c.ID := by
      intro id he
      by_contra hne
      have hdup : (m.Update lr now c).1 = .error .ErrDuplicateEmail :=
        (Update_duplicate_iff lr m now c old hl).2 ⟨id, he, hne⟩
      rw [hdup] at hres
      cases hres
    rw [hs]
    refine ⟨?_, ?_, ?_, ?_⟩
    · intro k v hkv
      have hkv' : AList.lookup k (AList.insert c.ID r m.data) = some v := hkv
      by_cases hkr : k = c.ID
      · subst hkr
        simp only [AList.lookup_insert, Option.some.injEq] at hkv'
        rw [← hkv', hr]
      · rw [AList.lookup_insert_ne hkr] at hkv'
        exact hk k v hkv'
    · intro k v hkv
      have hkv' : AList.lookup k (AList.insert c.ID r m.data) = some v := hkv
      by_cases hkr : k = c.ID
      · rw [hkr]; exact hi c.ID old hl
      · rw [AList.lookup_insert_ne hkr] at hkv'
        exact hi k v hkv'
    · intro k v hkv
      have hkv' : AList.lookup k (AList.insert c.ID r m.data) = some v := hkv
      show AList.lookup (ToLower lr v.Email)
        (AList.insert (ToLower lr c.Email) c.ID (AList.erase (ToLower lr old.Email) m.emails))
          = some k
      by_cases hkr : k = c.ID
      · subst hkr
        simp only [AList.lookup_insert, Option.some.injEq] at hkv'
        rw [← hkv', hre]
        exact AList.lookup_insert _
      · rw [AList.lookup_insert_ne hkr] at hkv'
        have hv := hx1 k v hkv'
        have hne1 : ToLower lr v.Email ≠ ToLower lr c.Email := by
          intro heq; rw [heq] at hv; exact hkr (hnodup k hv)
        have hne2 : ToLower lr v.Email ≠ ToLower lr old.Email := by
          intro heq; rw [heq, hold] at hv
          exact hkr (Option.some.inj hv).symm
        rw [AList.lookup_insert_ne hne1, AList.lookup_erase_ne hne2]
        exact hv
    · intro e id he
      have he' : AList.lookup e
        (AList.insert (ToLower lr c.Email) c.ID (AList.erase (ToLower lr old.Email) m.emails))
          = some id := he
      show ∃ c', AList.lookup id (AList.insert c.ID r m.data) = some c' ∧ ToLower lr c'.Email = e
      by_cases hee : e = ToLower lr c.Email
      · subst hee
        simp only [AList.lookup_insert, Option.some.injEq] at he'
        subst he'
        exact ⟨r, AList.lookup_insert _, by rw [hre]⟩
      · rw [AList.lookup_insert_ne hee] at he'
        have hee2 : e ≠ ToLower lr old.Email := by
          intro heq; rw [heq, AList.lookup_erase] at he'; cases he'
        rw [AList.lookup_erase_ne hee2] at he'
        obtain ⟨c', hc', hce⟩ := hx2 e id he'
        have hne : id ≠ c.ID := by
          intro heq
          rw [heq, hl] at hc'
          exact hee2 (by rw [← hce, ← Option.some.inj hc'])
        exact ⟨c', by rw [AList.lookup_insert_ne hne]; exact hc', hce⟩

theorem storeInv_delete (lr : Char → Char) (m : Memory) (id : String)
    (hinv : StoreInv lr m) : StoreInv lr (m.Delete lr id).2 := by
  obtain ⟨hk, hi, hx1, hx2⟩ := hinv
  cases hl : m.data.lookup id with
  | none =>
    have : (m.Delete lr id).2 = m := by unfold Memory.Delete; rw [hl]
    rw [this]; exact ⟨hk, hi, hx1, hx2⟩
  | some old =>
    have hs : (m.Delete lr id).2 =
        { m with emails := m.emails.erase (ToLower lr old.Email), data := m.data.erase id } := by
      unfold Memory.Delete; rw [hl]
    have hold : m.emails.lookup (ToLower lr old.Email) = some id := hx1 _ _ hl
    have hlive : ∀ k v, AList.lookup k (AList.erase id m.data) = some v →
        k ≠ id ∧ m.data.lookup k = some v := by
      intro k v hkv
      by_cases hkr : k = id
      · rw [hkr, AList.lookup_erase] at hkv; cases hkv
      · rw [AList.lookup_erase_ne hkr] at hkv; exact ⟨hkr, hkv⟩
    rw [hs]
    refine ⟨?_, ?_, ?_, ?_⟩
    · intro k v hkv; exact hk k v (hlive k v hkv).2
    · intro k v hkv; exact hi k v (hlive k v hkv).2
    · intro k v hkv
      obtain ⟨hkr, hkv'⟩ := hlive k v hkv
      have hv := hx1 k v hkv'
      have hne : ToLower lr v.Email ≠ ToLower lr old.Email := by
        intro heq; rw [heq, hold] at hv
        exact hkr (Option.some.inj hv).symm
      show AList.lookup (ToLower lr v.Email) (AList.erase (ToLower lr old.Email) m.emails) = some k
      rw [AList.lookup_erase_ne hne]
      exact hv
    · intro e id' he
      have he' : AList.lookup e (AList.erase (ToLower lr old.Email) m.emails) = some id' := he
      have hee : e ≠ ToLower lr old.Email := by
        intro heq; rw [heq, AList.lookup_erase] at he'; cases he'
      rw [AList.lookup_erase_ne hee] at he'
      obtain ⟨c', hc', hce⟩ := hx2 e id' he'
      have hne : id' ≠ id := by
        intro heq
        rw [heq, hl] at hc'
        exact hee (by rw [← hce, ← Option.some.inj hc'])
      refine ⟨c', ?_, hce⟩
      show AList.lookup id' (AList.erase id m.data) = some c'
      rw [AList.lookup_erase_ne hne]
      exact hc'

/-- The ID that the next `Create` issues is not in use, as long as the counter
has been incremented fewer than `2^64` times. -/
theorem Issued.fresh {m : Memory} {n : Nat} (h : Issued m n) (hn : n + 1 ≤ 2 ^ 64) :
    m.data.lookup (Itoa (wrapInt (m.counter + 1))) = none := by
  cases hd : m.data.lookup (Itoa (wrapInt (m.counter + 1))) with
  | none => rfl
  | some c' =>
    exfalso
    obtain ⟨j, hj1, hj2, hkj⟩ := h.2 _ _ hd
    have hw := Itoa_injective hkj
    rw [wrapInt_succ_of_count _ n h.1] at hw
    have h264 : (2 : Nat) ^ 64 = 18446744073709551616 := by norm_num
    have := wrapInt_natCast_inj j (n + 1) hw.symm (by omega) (by omega)
    omega

theorem Issued.create {lr : Char → Char} {m : Memory} {n : Nat} (h : Issued m n) (now : Time)
    (c r : Contact) (hres : (m.Create lr now c).1 = .ok r) :
    Issued (m.Create lr now c).2 (n + 1) := by
  obtain ⟨hr, hs⟩ := Create_of_ok lr m now c r hres
  have hrid : r.ID = Itoa (wrapInt ((n + 1 : Nat) : Int)) := by
    rw [hr]
    exact congrArg Itoa (wrapInt_succ_of_count _ n h.1)
  rw [hs]
  refine ⟨wrapInt_succ_of_count _ n h.1, ?_⟩
  intro k v hkv
  have hkv' : AList.lookup k (AList.insert r.ID r m.data) = some v := hkv
  by_cases hkr : k = r.ID
  · exact ⟨n + 1, by omega, le_refl _, hkr.trans hrid⟩
  · rw [AList.lookup_insert_ne hkr] at hkv'
    obtain ⟨j, h1, h2, h3⟩ := h.2 k v hkv'
    exact ⟨j, h1, Nat.le_succ_of_le h2, h3⟩

theorem Issued.update {lr : Char → Char} {m : Memory} {n : Nat} (h : Issued m n) (now : Time)
    (c : Contact) : Issued (m.Update lr now c).2 n := by
  cases hres : (m.Update lr now c).1 with
  | error e => rw [Update_of_error lr m now c e hres]; exact h
  | ok r =>
    obtain ⟨old, hl, _, hs⟩ := Update_of_ok lr m now c r hres
    rw [hs]
    refine ⟨h.1, ?_⟩
    intro k v hkv
    have hkv' : AList.lookup k (AList.insert c.ID r m.data) = some v := hkv
    by_cases hkr : k = c.ID
    · rw [hkr]; exact h.2 c.ID old hl
    · rw [AList.lookup_insert_ne hkr] at hkv'
      exact h.2 k v hkv'

theorem Issued.delete {lr : Char → Char} {m : Memory} {n : Nat} (h : Issued m n)
    (id : String) : Issued (m.Delete lr id).2 n := by
  cases hl : m.data.lookup id with
  | none =>
    have : (m.Delete lr id).2 = m := by unfold Memory.Delete; rw [hl]
    rw [this]; exact h
  | some old =>
    have hs : (m.Delete lr id).2 =
        { m with emails := m.emails.erase (ToLower lr old.Email), data := m.data.erase id } := by
      unfold Memory.Delete; rw [hl]
    rw [hs]
    refine ⟨h.1, ?_⟩
    intro k v hkv
    have hkv' : AList.lookup k (AList.erase id m.data) = some v := hkv
    by_cases hkr : k = id
    · rw [hkr, AList.lookup_erase] at hkv'; cases hkv'
    · rw [AList.lookup_erase_ne hkr] at hkv'
      exact h.2 k v hkv'

theorem issued_new : Issued NewMemory 0 := by
  refine ⟨by decide, ?_⟩
  intro k c h
  simp [NewMemory] at h

/-- The invariant along a run whose `Create` calls carry no ID, as long as at most
`2^64` of them succeed in all. -/
theorem storeInv_run (lr : Char → Char) (ops : List Op) :
    ∀ (m : Memory) (n : Nat), StoreInv lr m → Issued m n →
      (∀ op ∈ ops, op.createsWithoutID) → n + (createdIDs lr m ops).length ≤ 2 ^ 64 →
      StoreInv lr (m.run lr ops) ∧ Issued (m.run lr ops) (n + (createdIDs lr m ops).length) := by
  induction ops with
  | nil => intro m n h hi _ _; exact ⟨h, hi⟩
  | cons op ops ih =>
    intro m n h hi hops hb
    have hrest : ∀ o ∈ ops, o.createsWithoutID := fun o ho => hops o (List.mem_cons_of_mem _ ho)
    have hop := hops op (List.mem_cons_self _ _)
    cases op with
    | create now c =>
      rw [run_cons]
      simp only [createdIDs, Memory.step] at hb ⊢
      cases hres : (m.Create lr now c).1 with
      | error e =>
        rw [hres] at hb
        have hs := (Create_of_error lr m now c e hres).2
        dsimp only at hb ⊢
        rw [hs] at hb ⊢
        exact ih m n h hi hrest hb
      | ok r =>
        rw [hres] at hb
        dsimp only at hb ⊢
        rw [List.length_cons] at hb ⊢
        have hfresh := hi.fresh (by omega)
        have h1 := storeInv_create lr m now c h hop hfresh
        have h2 := hi.create now c r hres
        have h3 := ih (m.Create lr now c).2 (n + 1) h1 h2 hrest (by omega)
        have hk : n + 1 + (createdIDs lr (m.Create lr now c).2 ops).length =
            n + ((createdIDs lr (m.Create lr now c).2 ops).length + 1) := by omega
        rw [hk] at h3
        exact h3
    | update now c =>
      rw [run_cons]
      simp only [createdIDs, Memory.step] at hb ⊢
      exact ih _ n (storeInv_update lr m now c h) (hi.update now c) hrest hb
    | delete id =>
      rw [run_cons]
      simp only [createdIDs, Memory.step] at hb ⊢
      exact ih _ n (storeInv_delete lr m id h) (hi.delete id) hrest hb

/-- An exact index makes the emails of the live contacts unique. -/
theorem StoreInv.emailsUnique {lr : Char → Char} {m : Memory} (h : StoreInv lr m) :
    EmailsUnique lr m := by
  obtain ⟨hk, _, hx1, _⟩ := h
  intro a ha b hb hab heq
  obtain ⟨ka, hka⟩ := (mem_contacts_iff m a).1 ha
  obtain ⟨kb, hkb⟩ := (mem_contacts_iff m b).1 hb
  rw [Get_eq_ok_iff] at hka hkb
  have h1 := hx1 ka a hka
  have h2 := hx1 kb b hkb
  rw [heq, h2] at h1
  have hkk : kb = ka := Option.some.inj h1
  exact hab ((hk ka a hka).trans (hkk.symm.trans (hk kb b hkb).symm))


/-- With an exact index, `Create` of a contact without an ID is rejected exactly
when a live contact has the same lowercased email. -/
theorem StoreInv.create_rejects_iff {lr : Char → Char} {m : Memory} (h : StoreInv lr m)
    (now : Time) (c : Contact) (hc : c.ID = "") :
    (m.Create lr now c).1 = .error .ErrDuplicateEmail ↔
      ∃ a ∈ m.contacts, ToLower lr a.Email = ToLower lr c.Email := by
  obtain ⟨_, hi, hx1, hx2⟩ := h
  rw [Create_duplicate_iff]
  constructor
  · rintro ⟨id, he, _⟩
    obtain ⟨a, ha, hae⟩ := hx2 _ _ he
    exact ⟨a, (mem_contacts_iff m a).2 ⟨id, (Get_eq_ok_iff _ _ _).2 ha⟩, hae⟩
  · rintro ⟨a, ha, hae⟩
    obtain ⟨k, hk⟩ := (mem_contacts_iff m a).1 ha
    rw [Get_eq_ok_iff] at hk
    refine ⟨k, by rw [← hae]; exact hx1 k a hk, ?_⟩
    rw [hc]
    exact hi k a hk

/-- With an exact index, `Update` of a live contact is rejected exactly when a live
contact with another ID has the same lowercased email. -/
theorem StoreInv.update_rejects_iff {lr : Char → Char} {m : Memory} (h : StoreInv lr m)
    (now : Time) (c old : Contact) (hl : m.data.lookup c.ID = some old) :
    (m.Update lr now c).1 = .error .ErrDuplicateEmail ↔
      ∃ a ∈ m.contacts, a.ID ≠ c.ID ∧ ToLower lr a.Email = ToLower lr c.Email := by
  obtain ⟨hk, _, hx1, hx2⟩ := h
  rw [Update_duplicate_iff lr m now c old hl]
  constructor
  · rintro ⟨id, he, hne⟩
    obtain ⟨a, ha, hae⟩ := hx2 _ _ he
    refine ⟨a, (mem_contacts_iff m a).2 ⟨id, (Get_eq_ok_iff _ _ _).2 ha⟩, ?_, hae⟩
    rw [hk id a ha]; exact hne
  · rintro ⟨a, ha, hne, hae⟩
    obtain ⟨k, hka⟩ := (mem_contacts_iff m a).1 ha
    rw [Get_eq_ok_iff] at hka
    refine ⟨k, by rw [← hae]; exact hx1 k a hka, ?_⟩
    rw [← hk k a hka]; exact hne

/-! ### Validation -/

theorem alist_entries_insert_ne_nil (k v : String) (s : AList (fun _ : String => String)) :
    (s.insert k v).entries ≠ [] := by
  rw [AList.insert_entries]; exact List.cons_ne_nil _ _

/-- C11. `Validate` returns a mapping whose keys are among FirstName, LastName and
Email; FirstName is a key exactly when the first name is blank after trimming,
LastName exactly when the last name is, and Email exactly when the email is blank
after trimming or `mail.ParseAddress` rejects it; so the mapping is empty exactly
when the three rules pass, and it depends on no other field of the contact. -/
theorem validate_reports_failed_rules (parseAddress : String → Bool) (c : Contact) :
    (∀ k, k ∈ c.Validate parseAddress → k = "FirstName" ∨ k = "LastName" ∨ k = "Email") ∧
    ("FirstName" ∈ c.Validate parseAddress ↔ TrimSpace c.FirstName = "") ∧
    ("LastName" ∈ c.Validate parseAddress ↔ TrimSpace c.LastName = "") ∧
    ("Email" ∈ c.Validate parseAddress ↔
      TrimSpace c.Email = "" ∨ parseAddress c.Email = false) ∧
    ((c.Validate parseAddress).entries = [] ↔
      TrimSpace c.FirstName ≠ "" ∧ TrimSpace c.LastName ≠ "" ∧ TrimSpace c.Email ≠ "" ∧
        parseAddress c.Email = true) ∧
    (∀ (id phone : String) (created updated : Time),
      Contact.Validate parseAddress
        { c with ID := id, Phone := phone, CreatedAt := created, UpdatedAt := updated } =
      c.Validate parseAddress) := by
  have h1 : ("FirstName" : String) ≠ "LastName" := by decide
  have h2 : ("FirstName" : String) ≠ "Email" := by decide
  have h3 : ("LastName" : String) ≠ "Email" := by decide
  have h4 : ("LastName" : String) ≠ "FirstName" := by decide
  have h5 : ("Email" : String) ≠ "FirstName" := by decide
  have h6 : ("Email" : String) ≠ "LastName" := by decide
  refine ⟨?_, ?_, ?_, ?_, ?_, fun _ _ _ _ => rfl⟩
  all_goals
    unfold Contact.Validate
    by_cases hf : TrimSpace c.FirstName = "" <;> by_cases hl : TrimSpace c.LastName = "" <;>
      by_cases he : TrimSpace c.Email = "" <;> by_cases hp : parseAddress c.Email = false <;>
      simp [-AList.insert_empty, hf, hl, he, hp, h1, h2, h3, h4, h5, h6, AList.mem_insert,
        AList.not_mem_empty, AList.insert_entries]

/-! ### Configuration -/

theorem Getenv_empty (key : String) : Getenv (∅ : Env) key = "" := rfl

/-- C19. `FromEnv` takes the host from HTMXAPP_HOST when that is not empty and
leaves it empty otherwise; takes the port from HTMXAPP_PORT when that is not empty
and `strconv.Atoi` accepts it, and leaves it at 8080 otherwise; and switches
seeding off exactly when HTMXAPP_SEED is `false` or `0`.  `Addr` of the result is
the host, a colon and the decimal port, which is `:8080` when no variable is set. -/
theorem from_env_reads_variables (env : Env) :
    (Getenv env "HTMXAPP_HOST" ≠ "" → (FromEnv env).Host = Getenv env "HTMXAPP_HOST") ∧
    (Getenv env "HTMXAPP_HOST" = "" → (FromEnv env).Host = "") ∧
    (∀ p : Int, Getenv env "HTMXAPP_PORT" ≠ "" → Atoi (Getenv env "HTMXAPP_PORT") = some p →
      (FromEnv env).Port = p) ∧
    (Getenv env "HTMXAPP_PORT" = "" ∨ Atoi (Getenv env "HTMXAPP_PORT") = none →
      (FromEnv env).Port = 8080) ∧
    ((FromEnv env).Seed = false ↔
      Getenv env "HTMXAPP_SEED" = "false" ∨ Getenv env "HTMXAPP_SEED" = "0") ∧
    ((FromEnv env).Seed = true ↔
      ¬ (Getenv env "HTMXAPP_SEED" = "false" ∨ Getenv env "HTMXAPP_SEED" = "0")) ∧
    (FromEnv env).Addr = (FromEnv env).Host ++ ":" ++ Itoa (FromEnv env).Port ∧
    (FromEnv (∅ : Env)).Addr = ":8080" := by
  refine ⟨?_, ?_, ?_, ?_, ?_, ?_, rfl, by decide⟩
  all_goals
    unfold FromEnv
    by_cases hh : Getenv env "HTMXAPP_HOST" = "" <;>
      by_cases hs : Getenv env "HTMXAPP_SEED" = "false" ∨ Getenv env "HTMXAPP_SEED" = "0" <;>
      by_cases hp : Getenv env "HTMXAPP_PORT" = "" <;>
      cases ha : Atoi (Getenv env "HTMXAPP_PORT") <;>
      simp [hh, hs, hp, ha, DefaultConfig]

/-! ### The stores of the handlers -/

/-- C20, amended. After any run of calls on a new store in which every `Create`
gets a contact without an ID and at most `2^64` calls of `Create` succeed, every
live contact is indexed under its lowercased email with its own ID, every entry of
the index leads to a live contact with that ID and that lowercased email, and no
two live contacts share a lowercased email. -/
theorem handler_runs_keep_index_exact (lr : Char → Char) (ops : List Op)
    (h : ∀ op ∈ ops, op.createsWithoutID)
    (hb : (createdIDs lr NewMemory ops).length ≤ 2 ^ 64) :
    (∀ c ∈ (NewMemory.run lr ops).contacts,
      (NewMemory.run lr ops).emails.lookup (ToLower lr c.Email) = some c.ID ∧
      (NewMemory.run lr ops).Get c.ID = .ok c) ∧
    (∀ (e id : String), (NewMemory.run lr ops).emails.lookup e = some id →
      ∃ c, (NewMemory.run lr ops).Get id = .ok c ∧ c.ID = id ∧ ToLower lr c.Email = e) ∧
    EmailsUnique lr (NewMemory.run lr ops) := by
  have hinv : StoreInv lr (NewMemory.run lr ops) :=
    (storeInv_run lr ops NewMemory 0 (storeInv_new lr) issued_new h (by omega)).1
  refine ⟨?_, ?_, hinv.emailsUnique⟩
  · intro c hc
    obtain ⟨k, hk⟩ := (mem_contacts_iff _ c).1 hc
    have hk' := (Get_eq_ok_iff _ _ _).1 hk
    have hid : c.ID = k := hinv.1 k c hk'
    rw [hid]
    exact ⟨hinv.2.2.1 k c hk', hk⟩
  · intro e id he
    obtain ⟨c, hc, hce⟩ := hinv.2.2.2 e id he
    exact ⟨c, (Get_eq_ok_iff _ _ _).2 hc, hinv.1 id c hc, hce⟩

theorem handler_runs_keep_index_exact_witness :
    (∀ op ∈ [Op.create 1 (contactLit "" "Alice" "Johnson" "alice@example.com" "555-0001"),
        Op.create 2 (contactLit "" "Bob" "Smith" "BOB@example.com" "555-0002"),
        Op.update 3 (contactLit "1" "Alice" "Johnson" "Bob@Example.com" ""),
        Op.delete "2",
        Op.update 4 (contactLit "1" "Alice" "Johnson" "Bob@Example.com" "")],
      op.createsWithoutID) ∧
    (createdIDs asciiLower NewMemory
      [Op.create 1 (contactLit "" "Alice" "Johnson" "alice@example.com" "555-0001"),
        Op.create 2 (contactLit "" "Bob" "Smith" "BOB@example.com" "555-0002"),
        Op.update 3 (contactLit "1" "Alice" "Johnson" "Bob@Example.com" ""),
        Op.delete "2",
        Op.update 4 (contactLit "1" "Alice" "Johnson" "Bob@Example.com" "")]).length
      ≤ 2 ^ 64 ∧
    EmailsUnique asciiLower (NewMemory.run asciiLower
      [Op.create 1 (contactLit "" "Alice" "Johnson" "alice@example.com" "555-0001"),
        Op.create 2 (contactLit "" "Bob" "Smith" "BOB@example.com" "555-0002"),
        Op.update 3 (contactLit "1" "Alice" "Johnson" "Bob@Example.com" ""),
        Op.delete "2",
        Op.update 4 (contactLit "1" "Alice" "Johnson" "Bob@Example.com" "")]) :=
  ⟨by simp [Op.createsWithoutID, contactLit], by decide,
   (handler_runs_keep_index_exact asciiLower _
      (by simp [Op.createsWithoutID, contactLit]) (by decide)).2.2⟩

/-! ### Response writers -/

theorem response_WriteHeader (code : Nat) (w : ResponseWriter) :
    (w.WriteHeader code).response = w.response.WriteHeader code := by
  induction w with
  | server resp => rfl
  | statusWriter inner status wrote ih => exact ih

theorem response_Write (b : String) (w : ResponseWriter) :
    (w.Write b).response = w.response.Write b := by
  induction w with
  | server resp => rfl
  | statusWriter inner status wrote ih => exact ih

theorem response_setHeader (key value : String) (w : ResponseWriter) :
    (w.setHeader key value).response =
      { w.response with header := headerSet w.response.header key value } := by
  induction w with
  | server resp => rfl
  | statusWriter inner status wrote ih => exact ih

theorem Header_eq (w : ResponseWriter) : w.Header = w.response.header := by
  induction w with
  | server resp => rfl
  | statusWriter inner status wrote ih => exact ih

theorem Response.WriteHeader_of_none (resp : Response) (code : Nat) (h : resp.code = none) :
    resp.WriteHeader code = { resp with code := some code, sent := resp.header } := by
  unfold Response.WriteHeader; rw [h]

theorem Response.WriteHeader_of_some (resp : Response) (code c : Nat) (h : resp.code = some c) :
    resp.WriteHeader code = resp := by
  unfold Response.WriteHeader; rw [h]

/-- Once a status is written, a write changes only the body. -/
theorem Response.Write_of_some (resp : Response) (b : String) (c : Nat)
    (h : resp.code = some c) : resp.Write b = { resp with body := resp.body ++ b } := by
  unfold Response.Write; rw [Response.WriteHeader_of_some resp 200 c h]

theorem foldl_Write_of_some (chunks : List String) :
    ∀ (w : ResponseWriter) (c : Nat), w.response.code = some c →
      (chunks.foldl (fun w b => w.Write b) w).response.code = some c ∧
      (chunks.foldl (fun w b => w.Write b) w).response.sent = w.response.sent := by
  induction chunks with
  | nil => intro w c h; exact ⟨h, rfl⟩
  | cons b chunks ih =>
    intro w c h
    have hw : (w.Write b).response = { w.response with body := w.response.body ++ b } := by
      rw [response_Write, Response.Write_of_some _ _ c h]
    have h1 : (w.Write b).response.code = some c := by rw [hw]; exact h
    obtain ⟨h2, h3⟩ := ih (w.Write b) c h1
    refine ⟨h2, ?_⟩
    rw [List.foldl_cons, h3, hw]

/-- Rendering a page into a writer with a status leaves the status and the header
that went with it. -/
theorem RenderPage_of_some (rn : Renderer) (w : ResponseWriter) (name : String)
    (data : TemplateData) (c : Nat) (h : w.response.code = some c) :
    (rn.RenderPage w name data).1.response.code = some c ∧
    (rn.RenderPage w name data).1.response.sent = w.response.sent := by
  unfold Renderer.RenderPage
  split
  · exact foldl_Write_of_some _ w c h
  · exact ⟨h, rfl⟩

theorem httpError_of_none (w : ResponseWriter) (error : String) (code : Nat)
    (h : w.response.code = none) : (httpError w error code).response.code = some code := by
  unfold httpError
  simp only [response_Write, response_WriteHeader, response_setHeader]
  simp [Response.Write, Response.WriteHeader, h]

theorem httpError_of_some (w : ResponseWriter) (error : String) (code c : Nat)
    (h : w.response.code = some c) : (httpError w error code).response.code = some c := by
  unfold httpError
  simp only [response_Write, response_WriteHeader, response_setHeader]
  simp [Response.Write, Response.WriteHeader, h]

/-- A redirect written into a writer without a status: the status and the
`Location` the client gets. -/
theorem httpRedirect_of_none (w : ResponseWriter) (r : Request) (url : String) (code : Nat)
    (h : w.response.code = none) :
    (httpRedirect w r url code).response.code = some code ∧
    (httpRedirect w r url code).response.sent.lookup "Location" = some url := by
  have hne : ("Location" : String) ≠ "Content-Type" := by decide
  have h1 : CanonicalMIMEHeaderKey "Location" = "Location" := by decide
  have h2 : CanonicalMIMEHeaderKey "Content-Type" = "Content-Type" := by decide
  unfold httpRedirect
  dsimp only
  split <;> split <;>
    simp only [response_Write, response_WriteHeader, response_setHeader] <;>
    simp [Response.Write, Response.WriteHeader, h, headerSet, h1, h2, AList.lookup_insert,
      AList.lookup_insert_ne hne]

/-! ### Creating a contact through the handler -/

theorem Create_eq_of_error (lr : Char → Char) (m : Memory) (now : Time) (c : Contact)
    (e : StoreError) (h : (m.Create lr now c).1 = .error e) :
    m.Create lr now c = (.error .ErrDuplicateEmail, m) := by
  obtain ⟨he, hs⟩ := Create_of_error lr m now c e h
  exact Prod.ext (by rw [h, he]) hs

/-- A successful `Create` adds one contact when the ID it issues is not in use. -/
theorem Create_count_of_ok (lr : Char → Char) (m : Memory) (now : Time) (c r : Contact)
    (hfresh : m.data.lookup (Itoa (wrapInt (m.counter + 1))) = none)
    (h : (m.Create lr now c).1 = .ok r) :
    (m.Create lr now c).2.Count = m.Count + 1 := by
  obtain ⟨hr, hs⟩ := Create_of_ok lr m now c r h
  have hrid : r.ID = Itoa (wrapInt (m.counter + 1)) := by rw [hr]
  have hfresh' : r.ID ∉ m.data := by
    rw [← AList.lookup_eq_none, hrid]
    exact hfresh
  rw [hs]
  show (AList.insert r.ID r m.data).entries.length = m.data.entries.length + 1
  rw [AList.insert_entries_of_neg hfresh', List.length_cons]

theorem CreateContact_of_invalid (lr : Char → Char) (parseAddress : String → Bool) (h : Handler)
    (s : Memory) (now : Time) (r : Request) (w : ResponseWriter)
    (hv : ((contactFromForm r).Validate parseAddress).entries ≠ []) :
    (h.CreateContact lr parseAddress s now r w).1.w =
      (h.renderer.RenderPage (w.WriteHeader 422) "contact-form"
        (.contactFormData (contactFromForm r) ((contactFromForm r).Validate parseAddress))).1 ∧
    (h.CreateContact lr parseAddress s now r w).2 = s := by
  have hlen : ((contactFromForm r).Validate parseAddress).entries.length > 0 :=
    List.length_pos.2 hv
  unfold Handler.CreateContact
  simp only [hlen, if_true]
  trivial

theorem CreateContact_of_duplicate (lr : Char → Char) (parseAddress : String → Bool)
    (h : Handler) (s : Memory) (now : Time) (r : Request) (w : ResponseWriter)
    (hv : ((contactFromForm r).Validate parseAddress).entries = [])
    (hd : (s.Create lr now (contactFromForm r)).1 = .error .ErrDuplicateEmail) :
    (h.CreateContact lr parseAddress s now r w).1.w =
      (h.renderer.RenderPage (w.WriteHeader 422) "contact-form"
        (.contactFormData (contactFromForm r)
          (AList.singleton "Email" "A contact with this email already exists"))).1 ∧
    (h.CreateContact lr parseAddress s now r w).2 = s := by
  have hc := Create_eq_of_error lr s now _ _ hd
  unfold Handler.CreateContact
  simp only [hv, List.length_nil, gt_iff_lt, lt_self_iff_false, if_false, hc, if_true]
  trivial

theorem CreateContact_of_created (lr : Char → Char) (parseAddress : String → Bool)
    (h : Handler) (s : Memory) (now : Time) (r : Request) (w : ResponseWriter) (created : Contact)
    (hv : ((contactFromForm r).Validate parseAddress).entries = [])
    (hc : (s.Create lr now (contactFromForm r)).1 = .ok created) :
    (h.CreateContact lr parseAddress s now r w).1.w = httpRedirect w r "/contacts" 303 ∧
    (h.CreateContact lr parseAddress s now r w).2 = (s.Create lr now (contactFromForm r)).2 := by
  have hp : s.Create lr now (contactFromForm r) =
      (.ok created, (s.Create lr now (contactFromForm r)).2) := Prod.ext hc rfl
  unfold Handler.CreateContact
  simp only [hv, List.length_nil, gt_iff_lt, lt_self_iff_false, if_false]
  rw [hp]
  exact ⟨rfl, rfl⟩

/-- On a store with an exact email index whose next ID is not in use, and with a
writer that has no status yet: when the contact of the form fails `Validate`,
`CreateContact` answers 422 and leaves the store as it is; when the contact passes
and a live contact has the same lowercased email, it answers 422 with the form
rendered for the field errors whose one key is `Email`, and leaves the store as it
is; otherwise it answers 303 with the `Location` `/contacts`, and `Count` is one
more than before. -/
theorem CreateContact_of_storeInv (lr : Char → Char) (parseAddress : String → Bool) (h : Handler)
    (s : Memory) (now : Time) (r : Request) (w : ResponseWriter)
    (hinv : StoreInv lr s) (hfresh : s.data.lookup (Itoa (wrapInt (s.counter + 1))) = none)
    (hw : w.response.code = none) :
    (((contactFromForm r).Validate parseAddress).entries ≠ [] →
      (h.CreateContact lr parseAddress s now r w).1.w.response.code = some 422 ∧
      (h.CreateContact lr parseAddress s now r w).2 = s) ∧
    (((contactFromForm r).Validate parseAddress).entries = [] →
      (∃ a ∈ s.contacts, ToLower lr a.Email = ToLower lr (contactFromForm r).Email) →
      (h.CreateContact lr parseAddress s now r w).1.w.response.code = some 422 ∧
      (h.CreateContact lr parseAddress s now r w).2 = s ∧
      (h.CreateContact lr parseAddress s now r w).1.w =
        (h.renderer.RenderPage (w.WriteHeader 422) "contact-form"
          (.contactFormData (contactFromForm r)
            (AList.singleton "Email" "A contact with this email already exists"))).1 ∧
      (AList.singleton "Email" "A contact with this email already exists" : Values).keys
        = ["Email"]) ∧
    (((contactFromForm r).Validate parseAddress).entries = [] →
      (¬ ∃ a ∈ s.contacts, ToLower lr a.Email = ToLower lr (contactFromForm r).Email) →
      (h.CreateContact lr parseAddress s now r w).1.w.response.code = some 303 ∧
      (h.CreateContact lr parseAddress s now r w).1.w.response.sent.lookup "Location"
        = some "/contacts" ∧
      (h.CreateContact lr parseAddress s now r w).2.Count = s.Count + 1) := by
  have h422 : (w.WriteHeader 422).response.code = some 422 := by
    rw [response_WriteHeader, Response.WriteHeader_of_none _ _ hw]
  refine ⟨?_, ?_, ?_⟩
  · intro hv
    obtain ⟨h1, h2⟩ := CreateContact_of_invalid lr parseAddress h s now r w hv
    exact ⟨by rw [h1]; exact (RenderPage_of_some _ _ _ _ 422 h422).1, h2⟩
  · intro hv hdup
    have hd := (hinv.create_rejects_iff now (contactFromForm r) rfl).2 hdup
    obtain ⟨h1, h2⟩ := CreateContact_of_duplicate lr parseAddress h s now r w hv hd
    exact ⟨by rw [h1]; exact (RenderPage_of_some _ _ _ _ 422 h422).1, h2, h1, rfl⟩
  · intro hv hnodup
    cases hres : (s.Create lr now (contactFromForm r)).1 with
    | error e =>
      exfalso
      obtain ⟨he, _⟩ := Create_of_error lr s now _ e hres
      rw [he] at hres
      exact hnodup ((hinv.create_rejects_iff now (contactFromForm r) rfl).1 hres)
    | ok created =>
      obtain ⟨h1, h2⟩ := CreateContact_of_created lr parseAddress h s now r w created hv hres
      obtain ⟨h3, h4⟩ := httpRedirect_of_none w r "/contacts" 303 hw
      refine ⟨by rw [h1]; exact h3, by rw [h1]; exact h4, ?_⟩
      rw [h2]
      exact Create_count_of_ok lr s now _ created hfresh hres

/-- The same on every store that a run of calls built in which every `Create` got
a contact without an ID and fewer than `2^64` calls of `Create` succeeded: the
stores the handlers build. -/
theorem CreateContact_after_handler_run (lr : Char → Char) (parseAddress : String → Bool)
    (h : Handler) (ops : List Op) (now : Time) (r : Request) (w : ResponseWriter)
    (hops : ∀ op ∈ ops, op.createsWithoutID)
    (hb : (createdIDs lr NewMemory ops).length < 2 ^ 64) (hw : w.response.code = none) :
    (((contactFromForm r).Validate parseAddress).entries ≠ [] →
      (h.CreateContact lr parseAddress (NewMemory.run lr ops) now r w).1.w.response.code
        = some 422 ∧
      (h.CreateContact lr parseAddress (NewMemory.run lr ops) now r w).2
        = NewMemory.run lr ops) ∧
    (((contactFromForm r).Validate parseAddress).entries = [] →
      (∃ a ∈ (NewMemory.run lr ops).contacts,
        ToLower lr a.Email = ToLower lr (contactFromForm r).Email) →
      (h.CreateContact lr parseAddress (NewMemory.run lr ops) now r w).1.w.response.code
        = some 422 ∧
      (h.CreateContact lr parseAddress (NewMemory.run lr ops) now r w).2
        = NewMemory.run lr ops) ∧
    (((contactFromForm r).Validate parseAddress).entries = [] →
      (¬ ∃ a ∈ (NewMemory.run lr ops).contacts,
        ToLower lr a.Email = ToLower lr (contactFromForm r).Email) →
      (h.CreateContact lr parseAddress (NewMemory.run lr ops) now r w).1.w.response.code
        = some 303 ∧
      (h.CreateContact lr parseAddress (NewMemory.run lr ops) now r w).2.Count
        = (NewMemory.run lr ops).Count + 1) := by
  obtain ⟨hinv, hiss⟩ :=
    storeInv_run lr ops NewMemory 0 (storeInv_new lr) issued_new hops (by omega)
  have hfresh := hiss.fresh (by omega)
  have key := CreateContact_of_storeInv lr parseAddress h (NewMemory.run lr ops) now r w hinv
    hfresh hw
  refine ⟨key.1, fun hv hd => ?_, fun hv hd => ?_⟩
  · exact ⟨(key.2.1 hv hd).1, (key.2.1 hv hd).2.1⟩
  · exact ⟨(key.2.2 hv hd).1, (key.2.2 hv hd).2.2⟩

/-- C12. The store after `Create` of a contact with the email `ann@x.io`, `Create`
of a contact with the ID `1` and the email `ANN@X.IO`, and `Delete("2")` holds
contact `1` with the email `ann@x.io`, and `CreateContact` with a valid form whose
email is `ann@x.io` answers 303 there, not 422, and stores the contact: `Count`
goes from 1 to 2 and contacts `1` and `3` both have the email `ann@x.io`. -/
theorem create_contact_accepts_live_email :
    (NewMemory.run asciiLower
      [.create 1 (contactLit "" "Ann" "Lee" "ann@x.io" ""),
       .create 2 (contactLit "1" "Ann" "Lee" "ANN@X.IO" ""),
       .delete "2"]).Get "1" = .ok ⟨"1", "Ann", "Lee", "ann@x.io", "", 1, 1⟩ ∧
    (NewMemory.run asciiLower
      [.create 1 (contactLit "" "Ann" "Lee" "ann@x.io" ""),
       .create 2 (contactLit "1" "Ann" "Lee" "ANN@X.IO" ""),
       .delete "2"]).Count = 1 ∧
    ((contactFromForm (requestLit "POST" "/contacts"
        [("first_name", "Ann"), ("last_name", "Ray"), ("email", "ann@x.io")] [] [])).Validate
      acceptsAt).entries = [] ∧
    (Handler.CreateContact asciiLower acceptsAt ⟨testRenderer⟩
      (NewMemory.run asciiLower
        [.create 1 (contactLit "" "Ann" "Lee" "ann@x.io" ""),
         .create 2 (contactLit "1" "Ann" "Lee" "ANN@X.IO" ""),
         .delete "2"])
      3 (requestLit "POST" "/contacts"
        [("first_name", "Ann"), ("last_name", "Ray"), ("email", "ann@x.io")] [] [])
      NewRecorder).1.w.response.Code = 303 ∧
    (Handler.CreateContact asciiLower acceptsAt ⟨testRenderer⟩
      (NewMemory.run asciiLower
        [.create 1 (contactLit "" "Ann" "Lee" "ann@x.io" ""),
         .create 2 (contactLit "1" "Ann" "Lee" "ANN@X.IO" ""),
         .delete "2"])
      3 (requestLit "POST" "/contacts"
        [("first_name", "Ann"), ("last_name", "Ray"), ("email", "ann@x.io")] [] [])
      NewRecorder).2.contacts =
      [⟨"3", "Ann", "Ray", "ann@x.io", "", 3, 3⟩, ⟨"1", "Ann", "Lee", "ann@x.io", "", 1, 1⟩] := by
  decide

/-! ### Updating and deleting through the handler -/

theorem Update_eq_of_notFound (lr : Char → Char) (m : Memory) (now : Time) (c : Contact)
    (h : m.data.lookup c.ID = none) : m.Update lr now c = (.error .ErrNotFound, m) := by
  unfold Memory.Update; rw [h]

theorem httpNotFound_of_none (w : ResponseWriter) (h : w.response.code = none) :
    (httpNotFound w).response.code = some 404 := httpError_of_none w _ 404 h

/-- C13 as stated fails. In the store of the tests, the request for the ID 999
with an empty form is answered 422, not 404. -/
theorem update_contact_unknown_id_invalid_form :
    ¬ ∀ (s : Memory) (now : Time) (r : Request),
        s.Get (r.PathValue "id") = .error .ErrNotFound →
        (Handler.UpdateContact asciiLower acceptsAt ⟨testRenderer⟩ s now r
          NewRecorder).1.w.response.Code = 404 ∧
        (Handler.UpdateContact asciiLower acceptsAt ⟨testRenderer⟩ s now r NewRecorder).2 = s := by
  intro h
  have h1 := (h newTestStore 5 (requestLit "POST" "/contacts/999" [] [("id", "999")] [])
    (by decide)).1
  revert h1
  decide

/-- C13, amended. When the ID of the path names no live contact, `UpdateContact`
leaves the store as it is; it answers 404 when the contact of the form passes
`Validate`, and 422 when it fails `Validate`, which the handler checks first. -/
theorem update_contact_unknown_id (lr : Char → Char) (parseAddress : String → Bool)
    (h : Handler) (s : Memory) (now : Time) (r : Request) (w : ResponseWriter)
    (hw : w.response.code = none)
    (hid : s.Get (r.PathValue "id") = .error .ErrNotFound) :
    (h.UpdateContact lr parseAddress s now r w).2 = s ∧
    (({ contactFromForm r with ID := r.PathValue "id" }.Validate parseAddress).entries = [] →
      (h.UpdateContact lr parseAddress s now r w).1.w.response.code = some 404) ∧
    (({ contactFromForm r with ID := r.PathValue "id" }.Validate parseAddress).entries ≠ [] →
      (h.UpdateContact lr parseAddress s now r w).1.w.response.code = some 422) := by
  have hl : s.data.lookup (r.PathValue "id") = none := (Get_eq_notFound_iff _ _).1 hid
  have hu := Update_eq_of_notFound lr s now { contactFromForm r with ID := r.PathValue "id" } hl
  have h422 : (w.WriteHeader 422).response.code = some 422 := by
    rw [response_WriteHeader, Response.WriteHeader_of_none _ _ hw]
  by_cases hv : ({ contactFromForm r with ID := r.PathValue "id" }.Validate parseAddress).entries
      = []
  · have key : h.UpdateContact lr parseAddress s now r w =
        ({ w := httpNotFound w, logs := [], panic := none }, s) := by
      unfold Handler.UpdateContact
      simp only [hv, List.length_nil, gt_iff_lt, lt_self_iff_false, if_false, hu, if_true]
    rw [key]
    exact ⟨rfl, fun _ => httpNotFound_of_none w hw, fun hne => absurd hv hne⟩
  · have hlen : ({ contactFromForm r with ID := r.PathValue "id" }.Validate
        parseAddress).entries.length > 0 := List.length_pos.2 hv
    have key : h.UpdateContact lr parseAddress s now r w =
        ({ w := (h.renderer.RenderPage (w.WriteHeader 422) "contact-form"
              (.contactFormData { contactFromForm r with ID := r.PathValue "id" }
                ({ contactFromForm r with ID := r.PathValue "id" }.Validate parseAddress))).1,
           logs := logRenderError "render edit form with errors"
             (h.renderer.RenderPage (w.WriteHeader 422) "contact-form"
              (.contactFormData { contactFromForm r with ID := r.PathValue "id" }
                ({ contactFromForm r with ID := r.PathValue "id" }.Validate parseAddress))).2,
           panic := none }, s) := by
      unfold Handler.UpdateContact
      simp only [hlen, if_true]
    rw [key]
    exact ⟨rfl, fun he => absurd he hv, fun _ => (RenderPage_of_some _ _ _ _ 422 h422).1⟩

theorem update_contact_unknown_id_witness :
    NewRecorder.response.code = none ∧
    newTestStore.Get ((requestLit "POST" "/contacts/999"
      [("first_name", "X"), ("last_name", "Y"), ("email", "x@y.com")]
      [("id", "999")] []).PathValue "id") = .error .ErrNotFound ∧
    (Handler.UpdateContact asciiLower acceptsAt ⟨testRenderer⟩ newTestStore 5
      (requestLit "POST" "/contacts/999"
        [("first_name", "X"), ("last_name", "Y"), ("email", "x@y.com")] [("id", "999")] [])
      NewRecorder).1.w.response.code = some 404 :=
  ⟨rfl, by decide,
   (update_contact_unknown_id asciiLower acceptsAt ⟨testRenderer⟩ newTestStore 5
      (requestLit "POST" "/contacts/999"
        [("first_name", "X"), ("last_name", "Y"), ("email", "x@y.com")] [("id", "999")] [])
      NewRecorder rfl (by decide)).2.1 (by decide)⟩

theorem Delete_eq_of_notFound (lr : Char → Char) (m : Memory) (id : String)
    (h : m.data.lookup id = none) : m.Delete lr id = (.error .ErrNotFound, m) := by
  unfold Memory.Delete; rw [h]

theorem Delete_ok_of_lookup (lr : Char → Char) (m : Memory) (id : String) (c : Contact)
    (h : m.data.lookup id = some c) : (m.Delete lr id).1 = .ok () := by
  unfold Memory.Delete; rw [h]

theorem Delete_get_count_of_ok (lr : Char → Char) (s : Memory) (id : String)
    (h : (s.Delete lr id).1 = .ok ()) :
    (s.Delete lr id).2.Get id = .error .ErrNotFound ∧
    (s.Delete lr id).2.Count + 1 = s.Count := by
  obtain ⟨old, hl, hs⟩ := Delete_of_ok lr s id h
  rw [hs]
  refine ⟨?_, length_erase_of_lookup s.data id old hl⟩
  rw [Get_eq_notFound_iff]; exact AList.lookup_erase id s.data

/-- C14. With a writer that has no status and no body yet: when no live contact
has the ID of the path, `DeleteContact` answers 404 and leaves the store, hence
`Count`, as it is; when a contact has it, that contact is gone afterwards, `Count`
is one less, and the answer is 200 with an empty body when the header HX-Request
is `true`, and 303 with the `Location` `/contacts` otherwise. -/
theorem delete_contact_answers (lr : Char → Char) (h : Handler) (s : Memory) (r : Request)
    (w : ResponseWriter) (hw : w.response.code = none) (hb : w.response.body = "") :
    (s.Get (r.PathValue "id") = .error .ErrNotFound →
      (h.DeleteContact lr s r w).1.w.response.code = some 404 ∧
      (h.DeleteContact lr s r w).2 = s ∧
      (h.DeleteContact lr s r w).2.Count = s.Count) ∧
    (∀ c, s.Get (r.PathValue "id") = .ok c →
      (h.DeleteContact lr s r w).2.Get (r.PathValue "id") = .error .ErrNotFound ∧
      (h.DeleteContact lr s r w).2.Count + 1 = s.Count ∧
      (isHTMX r = true →
        (h.DeleteContact lr s r w).1.w.response.code = some 200 ∧
        (h.DeleteContact lr s r w).1.w.response.body = "") ∧
      (isHTMX r = false →
        (h.DeleteContact lr s r w).1.w.response.code = some 303 ∧
        (h.DeleteContact lr s r w).1.w.response.sent.lookup "Location" = some "/contacts")) := by
  refine ⟨?_, ?_⟩
  · intro hid
    have hl : s.data.lookup (r.PathValue "id") = none := (Get_eq_notFound_iff _ _).1 hid
    have hd := Delete_eq_of_notFound lr s _ hl
    have key : h.DeleteContact lr s r w =
        ({ w := httpNotFound w, logs := [], panic := none }, s) := by
      unfold Handler.DeleteContact
      simp only [hd, if_true]
    rw [key]
    exact ⟨httpNotFound_of_none w hw, rfl, rfl⟩
  · intro c hc
    have hl : s.data.lookup (r.PathValue "id") = some c := (Get_eq_ok_iff _ _ _).1 hc
    have hok := Delete_ok_of_lookup lr s _ c hl
    obtain ⟨hg, hcount⟩ := Delete_get_count_of_ok lr s _ hok
    obtain ⟨old, _, hs⟩ := Delete_of_ok lr s _ hok
    rw [hs] at hg hcount
    have hp : s.Delete lr (r.PathValue "id") =
        (.ok (), { s with emails := s.emails.erase (ToLower lr old.Email),
                          data := s.data.erase (r.PathValue "id") }) :=
      Prod.ext hok hs
    by_cases hx : isHTMX r = true
    · have key : h.DeleteContact lr s r w =
          ({ w := w.WriteHeader 200,
             logs := [{ level := "INFO", msg := "contact deleted",
                        attrs := [("id", .str (r.PathValue "id"))] }],
             panic := none },
           { s with emails := s.emails.erase (ToLower lr old.Email),
                    data := s.data.erase (r.PathValue "id") }) := by
        unfold Handler.DeleteContact
        simp only [hp, hx, if_true]
      rw [key]
      refine ⟨hg, hcount, fun _ => ?_, fun hf => ?_⟩
      · rw [response_WriteHeader, Response.WriteHeader_of_none _ _ hw]
        exact ⟨rfl, hb⟩
      · rw [hx] at hf; cases hf
    · have hx' : isHTMX r = false := by simpa using hx
      have key : h.DeleteContact lr s r w =
          ({ w := httpRedirect w r "/contacts" 303,
             logs := [{ level := "INFO", msg := "contact deleted",
                        attrs := [("id", .str (r.PathValue "id"))] }],
             panic := none },
           { s with emails := s.emails.erase (ToLower lr old.Email),
                    data := s.data.erase (r.PathValue "id") }) := by
        unfold Handler.DeleteContact
        simp only [hp, hx', Bool.false_eq_true, if_false]
      rw [key]
      refine ⟨hg, hcount, fun ht => ?_, fun _ => httpRedirect_of_none w r "/contacts" 303 hw⟩
      rw [hx'] at ht; cases ht

/-- The header is found under every spelling of its name that has the canonical
form `Hx-Request`. -/
theorem isHTMX_of_any_spelling :
    isHTMX (requestLit "DELETE" "/contacts/1" [] [("id", "1")] [("hx-request", "true")]) = true ∧
    isHTMX (requestLit "DELETE" "/contacts/1" [] [("id", "1")] [("Hx-Request", "true")]) = true ∧
    isHTMX (requestLit "DELETE" "/contacts/1" [] [("id", "1")] [("HX-Request", "yes")]) = false ∧
    isHTMX (requestLit "DELETE" "/contacts/1" [] [("id", "1")] []) = false := by
  decide

theorem delete_contact_answers_witness :
    NewRecorder.response.code = none ∧ NewRecorder.response.body = "" ∧
    newTestStore.Get ((requestLit "DELETE" "/contacts/1" [] [("id", "1")]
      [("HX-Request", "true")]).PathValue "id")
      = .ok ⟨"1", "Alice", "Johnson", "alice@example.com", "555-0001", 1, 1⟩ ∧
    isHTMX (requestLit "DELETE" "/contacts/1" [] [("id", "1")] [("HX-Request", "true")]) = true ∧
    (Handler.DeleteContact asciiLower ⟨testRenderer⟩ newTestStore
      (requestLit "DELETE" "/contacts/1" [] [("id", "1")] [("HX-Request", "true")])
      NewRecorder).1.w.response.code = some 200 ∧
    (Handler.DeleteContact asciiLower ⟨testRenderer⟩ newTestStore
      (requestLit "DELETE" "/contacts/1" [] [("id", "1")] [("HX-Request", "true")])
      NewRecorder).2.Count + 1 = newTestStore.Count :=
  ⟨rfl, rfl, by decide, by decide,
   (((delete_contact_answers asciiLower ⟨testRenderer⟩ newTestStore
      (requestLit "DELETE" "/contacts/1" [] [("id", "1")] [("HX-Request", "true")])
      NewRecorder rfl rfl).2 ⟨"1", "Alice", "Johnson", "alice@example.com", "555-0001", 1, 1⟩
      (by decide)).2.2.1 (by decide)).1,
   ((delete_contact_answers asciiLower ⟨testRenderer⟩ newTestStore
      (requestLit "DELETE" "/contacts/1" [] [("id", "1")] [("HX-Request", "true")])
      NewRecorder rfl rfl).2 ⟨"1", "Alice", "Johnson", "alice@example.com", "555-0001", 1, 1⟩
      (by decide)).2.1⟩

/-! ### Middleware -/

theorem unwrap_response (w : ResponseWriter) : w.unwrap.response = w.response := by
  cases w <;> rfl

/-- What `Recovery` does with a panic of the handler it wraps. -/
theorem recovery_answers_aux (next : HandlerFunc) (r : Request) (w : ResponseWriter) (v : String)
    (hp : (next r w).panic = some v) :
    (Recovery next r w).panic = none ∧
    ((next r w).w.response.code = none → (Recovery next r w).w.response.Code = 500) ∧
    (∀ c, (next r w).w.response.code = some c → (Recovery next r w).w.response.Code = c) := by
  have key : Recovery next r w =
      { w := httpError (next r w).w "Internal Server Error" 500,
        logs := (next r w).logs ++ [panicRecord r v], panic := none } := by
    unfold Recovery
    simp only [hp]
  rw [key]
  refine ⟨rfl, fun hn => ?_, fun c hc => ?_⟩
  · show (httpError (next r w).w "Internal Server Error" 500).response.Code = 500
    unfold Response.Code
    rw [httpError_of_none _ _ _ hn]; rfl
  · show (httpError (next r w).w "Internal Server Error" 500).response.Code = c
    unfold Response.Code
    rw [httpError_of_some _ _ _ c hc]; rfl

/-- C15. `Recovery` around a handler that writes the status 200 and then panics
does not pass the panic on and calls `http.Error` with the status 500, but the
client gets the status 200 that the handler had written, with the text of the
error at the end of the body. -/
theorem recovery_after_status_answers_200 :
    (panicsAfterStatus (requestLit "GET" "/panic" [] [] []) NewRecorder).panic
      = some "late panic" ∧
    (Recovery panicsAfterStatus (requestLit "GET" "/panic" [] [] []) NewRecorder).panic = none ∧
    (Recovery panicsAfterStatus (requestLit "GET" "/panic" [] [] []) NewRecorder).w.response.Code
      = 200 ∧
    (Recovery panicsAfterStatus (requestLit "GET" "/panic" [] [] []) NewRecorder).w.response.body
      = "Internal Server Error\n" := by
  decide

/-- C16 as stated fails. With the stack of `Run` around a handler that panics at
once, the log holds no record of the access logger. -/
theorem stack_panic_no_access_record :
    ¬ ∀ (routes : HandlerFunc) (r : Request),
        (routes { r with RequestID := some "7f" }
          (.statusWriter (NewRecorder.setHeader "X-Request-ID" "7f") 200 false)).panic ≠ none →
        ∃ entry ∈ (stack "7f" "1ms" routes r NewRecorder).logs,
          entry.msg = "request" ∧ ("status", LogValue.int 500) ∈ entry.attrs := by
  intro h
  have h1 := h panicsAtOnce (requestLit "GET" "/panic" [] [] []) (by decide)
  revert h1
  decide

/-- C16, amended. With the stack of `Run`, when the handler of the routes panics,
the panic is not passed on, the log holds what the handler logged and then the
record of `Recovery`, so the access logger records nothing for the request, and
the client gets the status 500 when the handler had written no status. -/
theorem stack_recovers_panic (id duration : String) (routes : HandlerFunc) (r : Request)
    (w : ResponseWriter) (v : String)
    (hp : (routes { r with RequestID := some id }
      (.statusWriter (w.setHeader "X-Request-ID" id) 200 false)).panic = some v) :
    (stack id duration routes r w).panic = none ∧
    (stack id duration routes r w).logs =
      (routes { r with RequestID := some id }
        (.statusWriter (w.setHeader "X-Request-ID" id) 200 false)).logs ++
      [panicRecord { r with RequestID := some id } v] ∧
    (∀ entry ∈ (stack id duration routes r w).logs,
      entry ∈ (routes { r with RequestID := some id }
        (.statusWriter (w.setHeader "X-Request-ID" id) 200 false)).logs ∨
      entry.msg = "panic recovered") ∧
    ((routes { r with RequestID := some id }
        (.statusWriter (w.setHeader "X-Request-ID" id) 200 false)).w.response.code = none →
      (stack id duration routes r w).w.response.Code = 500) := by
  have hl : Logging duration routes { r with RequestID := some id }
        (w.setHeader "X-Request-ID" id) =
      { w := (routes { r with RequestID := some id }
          (.statusWriter (w.setHeader "X-Request-ID" id) 200 false)).w.unwrap,
        logs := (routes { r with RequestID := some id }
          (.statusWriter (w.setHeader "X-Request-ID" id) 200 false)).logs,
        panic := some v } := by
    unfold Logging
    simp only [hp]
  have hs : stack id duration routes r w =
      Recovery (Logging duration routes) { r with RequestID := some id }
        (w.setHeader "X-Request-ID" id) := rfl
  have hpl : (Logging duration routes { r with RequestID := some id }
      (w.setHeader "X-Request-ID" id)).panic = some v := by rw [hl]
  obtain ⟨h1, h2, _⟩ := recovery_answers_aux (Logging duration routes)
    { r with RequestID := some id } (w.setHeader "X-Request-ID" id) v hpl
  have hlogs : (stack id duration routes r w).logs =
      (routes { r with RequestID := some id }
        (.statusWriter (w.setHeader "X-Request-ID" id) 200 false)).logs ++
      [panicRecord { r with RequestID := some id } v] := by
    rw [hs]
    unfold Recovery
    simp only [hpl]
    rw [hl]
  refine ⟨by rw [hs]; exact h1, hlogs, ?_, ?_⟩
  · intro entry he
    rw [hlogs, List.mem_append, List.mem_singleton] at he
    rcases he with he | he
    · exact Or.inl he
    · exact Or.inr (by rw [he]; rfl)
  · intro hn
    rw [hs]
    apply h2
    rw [hl]
    show (routes { r with RequestID := some id }
      (.statusWriter (w.setHeader "X-Request-ID" id) 200 false)).w.unwrap.response.code = none
    rw [unwrap_response]
    exact hn

theorem stack_recovers_panic_witness :
    (panicsAtOnce { requestLit "GET" "/panic" [] [] [] with RequestID := some "7f" }
      (.statusWriter (NewRecorder.setHeader "X-Request-ID" "7f") 200 false)).panic
      = some "test panic" ∧
    (stack "7f" "1ms" panicsAtOnce (requestLit "GET" "/panic" [] [] []) NewRecorder).logs =
      [panicRecord (requestLit "GET" "/panic" [] [] []) "test panic"] ∧
    (stack "7f" "1ms" panicsAtOnce (requestLit "GET" "/panic" [] [] []) NewRecorder).panic
      = none :=
  ⟨rfl, by decide,
   (stack_recovers_panic "7f" "1ms" panicsAtOnce (requestLit "GET" "/panic" [] [] [])
      NewRecorder "test panic" rfl).1⟩

/-- C17 (the code departs from it). With a renderer that has no templates,
`RenderPage` returns an error in each of the six handlers, and none of them
answers 500: four answer 200 and the two that had written 422 answer 422, while
`Home` answers 500. -/
theorem render_error_not_answered_500 :
    (emptyRenderer.RenderPage NewRecorder "contact-form"
      (.contactFormData (contactLit "" "" "" "" "") ∅)).2.isSome = true ∧
    (Handler.NewContact ⟨emptyRenderer⟩ (requestLit "GET" "/contacts/new" [] [] [])
      NewRecorder).w.response.Code = 200 ∧
    (Handler.ListContacts asciiLower ⟨emptyRenderer⟩ newTestStore
      (requestLit "GET" "/contacts" [] [] []) NewRecorder).w.response.Code = 200 ∧
    (Handler.SearchContacts asciiLower ⟨emptyRenderer⟩ newTestStore
      (requestLit "GET" "/contacts/search" [] [] []) NewRecorder).w.response.Code = 200 ∧
    (Handler.EditContact ⟨emptyRenderer⟩ newTestStore
      (requestLit "GET" "/contacts/1/edit" [] [("id", "1")] []) NewRecorder).w.response.Code
      = 200 ∧
    (Handler.CreateContact asciiLower acceptsAt ⟨emptyRenderer⟩ newTestStore 5
      (requestLit "POST" "/contacts" [] [] []) NewRecorder).1.w.response.Code = 422 ∧
    (Handler.UpdateContact asciiLower acceptsAt ⟨emptyRenderer⟩ newTestStore 5
      (requestLit "POST" "/contacts/1" [] [("id", "1")] []) NewRecorder).1.w.response.Code
      = 422 ∧
    (Handler.Home ⟨emptyRenderer⟩ (requestLit "GET" "/" [] [] []) NewRecorder).w.response.Code
      = 500 := by
  decide

/-! ### Runs that wrap the counter -/

theorem run_append (lr : Char → Char) (m : Memory) (l1 l2 : List Op) :
    m.run lr (l1 ++ l2) = (m.run lr l1).run lr l2 := by
  unfold Memory.run
  exact List.foldl_append _ _ _ _

theorem erase_insert_of_lookup_none {V : Type} (s : AList (fun _ : String => V)) (a : String)
    (b : V) (h : s.lookup a = none) : (s.insert a b).erase a = s := by
  have hn : a ∉ s := AList.lookup_eq_none.1 h
  apply AList.ext
  show List.kerase a (s.insert a b).entries = s.entries
  rw [AList.insert_entries_of_neg hn]
  exact List.kerase_cons_eq rfl

/-- A `Create` of a contact whose email is not indexed succeeds, and the `Delete`
of the ID it issued, when that ID was not in use, leaves the store as it was but
for the counter. -/
theorem create_delete_round (lr : Char → Char) (m : Memory) (now : Time) (c : Contact)
    (he : m.emails.lookup (ToLower lr c.Email) = none)
    (hf : m.data.lookup (Itoa (wrapInt (m.counter + 1))) = none) :
    (∃ r, (m.Create lr now c).1 = .ok r ∧ r.ID = Itoa (wrapInt (m.counter + 1))) ∧
    ((m.Create lr now c).2.Delete lr (Itoa (wrapInt (m.counter + 1)))).2 =
      { m with counter := wrapInt (m.counter + 1) } := by
  obtain ⟨r, hres⟩ := Create_ok_of_not_indexed lr m now c he
  obtain ⟨hr, hs⟩ := Create_of_ok lr m now c r hres
  have hrid : r.ID = Itoa (wrapInt (m.counter + 1)) := by rw [hr]
  have hre : r.Email = c.Email := by rw [hr]
  refine ⟨⟨r, hres, hrid⟩, ?_⟩
  have hf1 : m.data.lookup r.ID = none := by rw [hrid]; exact hf
  rw [hs, ← hrid]
  have hl : (AList.insert r.ID r m.data).lookup r.ID = some r := AList.lookup_insert _
  unfold Memory.Delete
  dsimp only
  rw [hl]
  dsimp only
  rw [hre, erase_insert_of_lookup_none _ _ _ he, erase_insert_of_lookup_none _ _ _ hf1]

/-- What `n` rounds do to a store in which the email of the contact is not indexed
and none of the IDs of the rounds is in use: they return `n` IDs and leave the
store as it was but for the counter. -/
theorem run_churn (lr : Char → Char) (c : Contact) :
    ∀ (n j : Nat) (m : Memory), m.counter = wrapInt j →
      m.emails.lookup (ToLower lr c.Email) = none →
      (∀ k : Nat, j < k → k ≤ j + n → m.data.lookup (Itoa (wrapInt (k : Int))) = none) →
      m.run lr (churn c j n) = { m with counter := wrapInt ((j + n : Nat) : Int) } ∧
      (createdIDs lr m (churn c j n)).length = n := by
  intro n
  induction n with
  | zero =>
    intro j m hc _ _
    rw [churn, Nat.add_zero, ← hc]
    exact ⟨rfl, rfl⟩
  | succ n ih =>
    intro j m hc he hf
    have hf1 : m.data.lookup (Itoa (wrapInt (m.counter + 1))) = none := by
      rw [wrapInt_succ_of_count _ j hc]
      exact hf (j + 1) (by omega) (by omega)
    obtain ⟨⟨r, hres, _⟩, hround⟩ := create_delete_round lr m 0 c he hf1
    rw [wrapInt_succ_of_count _ j hc] at hround
    obtain ⟨h1, h2⟩ := ih (j + 1) { m with counter := wrapInt ((j + 1 : Nat) : Int) } rfl he
      (fun k hk1 hk2 => hf k (by omega) (by omega))
    have hk : j + 1 + n = j + (n + 1) := by omega
    rw [hk] at h1
    constructor
    · rw [churn, run_cons, run_cons]
      simp only [Memory.step]
      rw [hround, h1]
    · rw [churn, createdIDs]
      simp only [hres]
      rw [createdIDs, hround, List.length_cons, h2]

theorem churn_createsWithoutID (c : Contact) (hc : c.ID = "") :
    ∀ (n j : Nat), ∀ op ∈ churn c j n, op.createsWithoutID := by
  intro n
  induction n with
  | zero => intro j op h; simp [churn] at h
  | succ n ih =>
    intro j op h
    rw [churn, List.mem_cons, List.mem_cons] at h
    rcases h with h | h | h
    · rw [h]; exact hc
    · rw [h]; trivial
    · exact ih (j + 1) op h

/-- C4, the claim as it stands fails: in a run of `2^64 + 1` rounds, each a `Create`
and the `Delete` of the contact created, the `2^63`-th successful `Create` returns
`-9223372036854775808`, which is not the decimal string of `2^63`, and the first and
the last successful `Create` both return `1`. -/
theorem created_ids_wrap_after_int_overflow :
    (createdIDs asciiLower NewMemory
      (churn (contactLit "" "Ann" "Lee" "ann@x.io" "") 0 (2 ^ 64 + 1))).length = 2 ^ 64 + 1 ∧
    (createdIDs asciiLower NewMemory
      (churn (contactLit "" "Ann" "Lee" "ann@x.io" "") 0 (2 ^ 64 + 1)))[2 ^ 63 - 1]?
      = some "-9223372036854775808" ∧
    Nat.repr (2 ^ 63) = "9223372036854775808" ∧
    (createdIDs asciiLower NewMemory
      (churn (contactLit "" "Ann" "Lee" "ann@x.io" "") 0 (2 ^ 64 + 1)))[0]? = some "1" ∧
    (createdIDs asciiLower NewMemory
      (churn (contactLit "" "Ann" "Lee" "ann@x.io" "") 0 (2 ^ 64 + 1)))[2 ^ 64]? = some "1" := by
  have hlen := (run_churn asciiLower (contactLit "" "Ann" "Lee" "ann@x.io" "") (2 ^ 64 + 1) 0
    NewMemory (by decide) (by decide) (fun k _ _ => rfl)).2
  have hids := (createdIDs_from asciiLower
    (churn (contactLit "" "Ann" "Lee" "ann@x.io" "") 0 (2 ^ 64 + 1)) NewMemory 0 (by decide)).1
  rw [hlen] at hids
  refine ⟨hlen, ?_, by decide, ?_, ?_⟩
  · rw [hids, List.getElem?_map, List.getElem?_range (by norm_num)]
    decide
  · rw [hids, List.getElem?_map, List.getElem?_range (by norm_num)]
    decide
  · rw [hids, List.getElem?_map, List.getElem?_range (by norm_num)]
    decide

/-- C20, the claim as it stands fails: after `Create` of Ann, `2^64 - 1` rounds,
each a `Create` of Bea and the `Delete` of the contact created, and one more
`Create` of Bea, all of them with contacts without an ID, the index still leads
from the email of Ann to the ID `1`, under which the store now holds Bea. -/
theorem handler_run_overwrites_live_contact :
    (∀ op ∈ Op.create 1 (contactLit "" "Ann" "Lee" "ann@x.io" "") ::
        (churn (contactLit "" "Bea" "Ray" "bea@x.io" "") 1 (2 ^ 64 - 1) ++
          [Op.create 2 (contactLit "" "Bea" "Ray" "bea@x.io" "")]),
      op.createsWithoutID) ∧
    (NewMemory.run asciiLower [Op.create 1 (contactLit "" "Ann" "Lee" "ann@x.io" "")]).Get "1"
      = .ok ⟨"1", "Ann", "Lee", "ann@x.io", "", 1, 1⟩ ∧
    (NewMemory.run asciiLower
      (Op.create 1 (contactLit "" "Ann" "Lee" "ann@x.io" "") ::
        (churn (contactLit "" "Bea" "Ray" "bea@x.io" "") 1 (2 ^ 64 - 1) ++
          [Op.create 2 (contactLit "" "Bea" "Ray" "bea@x.io" "")]))).emails.lookup "ann@x.io"
      = some "1" ∧
    (NewMemory.run asciiLower
      (Op.create 1 (contactLit "" "Ann" "Lee" "ann@x.io" "") ::
        (churn (contactLit "" "Bea" "Ray" "bea@x.io" "") 1 (2 ^ 64 - 1) ++
          [Op.create 2 (contactLit "" "Bea" "Ray" "bea@x.io" "")]))).Get "1"
      = .ok ⟨"1", "Bea", "Ray", "bea@x.io", "", 2, 2⟩ := by
  have hkeys : (NewMemory.step asciiLower
      (Op.create 1 (contactLit "" "Ann" "Lee" "ann@x.io" ""))).data.keys = ["1"] := by decide
  have h1 : Itoa (wrapInt ((1 : Nat) : Int)) = "1" := by decide
  have h264 : (2 : Nat) ^ 64 = 18446744073709551616 := by norm_num
  have hrun := (run_churn asciiLower (contactLit "" "Bea" "Ray" "bea@x.io" "") (2 ^ 64 - 1) 1
    (NewMemory.step asciiLower (Op.create 1 (contactLit "" "Ann" "Lee" "ann@x.io" "")))
    (by decide) (by decide) (by
      intro k hk1 hk2
      rw [AList.lookup_eq_none, AList.mem_keys, hkeys, List.mem_singleton]
      intro heq
      have := wrapInt_natCast_inj 1 k (Itoa_injective (h1.trans heq.symm)) (by omega) (by omega)
      omega)).1
  refine ⟨?_, by decide, ?_, ?_⟩
  · intro op hop
    rw [List.mem_cons, List.mem_append, List.mem_singleton] at hop
    rcases hop with h | h | h
    · rw [h]; rfl
    · exact churn_createsWithoutID _ rfl _ _ op h
    · rw [h]; rfl
  · rw [run_cons, run_append, hrun]
    decide
  · rw [run_cons, run_append, hrun]
    decide

end Htmxapp
